import Mathlib

/-!
AP_Compass_BMM150: fixed-point compensation, sampling loop, read path and initialisation.

Shallow embedding of `libraries/AP_Compass/AP_Compass_BMM150.cpp`.

Machine integers are mathematical integers (`Int`) with the conversions of the C++
abstract machine written out: `to_int32`, `to_uint32`, `to_int16` are the two's-complement
conversions to `int32_t`, `uint32_t`, `int16_t`.  An operation whose operands have type
`int32_t` is the exact operation followed by `to_int32`; an operation with a `uint32_t`
operand converts both operands with `to_uint32` first (usual arithmetic conversions) and is
the exact operation followed by `to_uint32`.  A right shift of a signed value is arithmetic
(`asr`), a right shift of an unsigned value is logical (`lsr`).  Integer division by zero,
and the quotient `INT32_MIN / -1`, have no defined result: the embedding returns `none`.
The host is little-endian, as the Linux boards the file is compiled for are: a `le16_t`
object is read as its low byte plus 256 times its high byte.
-/

namespace BMM150

/-! ## Machine integers -/

/-- Conversion to `uint32_t`: the representative of `x` modulo 2^32 in `[0, 2^32)`. -/
def to_uint32 (x : Int) : Int := x % 4294967296

/-- Conversion to `int32_t`: the representative of `x` modulo 2^32 in `[-2^31, 2^31)`. -/
def to_int32 (x : Int) : Int := (x + 2147483648) % 4294967296 - 2147483648

/-- Conversion to `int16_t`: the representative of `x` modulo 2^16 in `[-2^15, 2^15)`. -/
def to_int16 (x : Int) : Int := (x + 32768) % 65536 - 32768

/-- Conversion to `uint16_t`: the representative of `x` modulo 2^16 in `[0, 2^16)`. -/
def to_uint16 (x : Int) : Int := x % 65536

/-- Arithmetic (sign-preserving) right shift of a signed value: floor division by `2^k`. -/
def asr (x : Int) (k : Nat) : Int := x / 2 ^ k

/-- Logical right shift of an unsigned 32-bit value (`x` in `[0, 2^32)`). -/
def lsr (x : Int) (k : Nat) : Int := to_uint32 x / 2 ^ k

/-- Division of two `uint32_t` values; undefined for a zero divisor. -/
def udiv32 (a b : Int) : Option Int :=
  if to_uint32 b = 0 then none else some (to_uint32 a / to_uint32 b)

/-- Division of two `int32_t` values, truncated toward zero; undefined for a zero divisor
and for `INT32_MIN / -1`. -/
def sdiv32 (a b : Int) : Option Int :=
  if b = 0 then none
  else if a = -2147483648 ∧ b = -1 then none
  else some (Int.tdiv a b)

/-! ## Trim coefficients -/

/-- The member `_dig`: the eleven trim coefficients, as assigned by `_load_trim_values`.
The 8-bit members hold the `int8_t` (`x1 y1 x2 y2 xy2`) and `uint8_t` (`xy1`) bytes of the
trim block, the 16-bit members the values returned by `le16toh`, converted to the type of
the member (see `DigDecl`). -/
structure Dig where
  x1 : Int
  y1 : Int
  x2 : Int
  y2 : Int
  z1 : Int
  z2 : Int
  z3 : Int
  z4 : Int
  xy1 : Int
  xy2 : Int
  xyz1 : Int
deriving DecidableEq, Repr

/-! ## Compensation engine -/

/-- `AP_Compass_BMM150::_compensate_xy(int16_t xy, uint32_t rhall, int32_t txy1, int32_t txy2)`.
`inter /= rhall` divides an `int32_t` by a `uint32_t`, hence as unsigned 32-bit values;
`inter * (((uint32_t)_dig.xy1) << 7)` and the `+=` that adds it are unsigned as well. -/
def _compensate_xy (dig : Dig) (xy rhall txy1 txy2 : Int) : Option Int := do
  -- int32_t inter = ((int32_t)_dig.xyz1) << 14;
  let inter := to_int32 (to_int32 dig.xyz1 * 2 ^ 14)
  -- inter /= rhall;
  let q ← udiv32 inter rhall
  let inter := to_int32 q
  -- inter -= 0x4000;
  let inter := to_int32 (inter - 0x4000)
  -- int32_t val = _dig.xy2 * ((inter * inter) >> 7);
  let val := to_int32 (dig.xy2 * asr (to_int32 (inter * inter)) 7)
  -- val += (inter * (((uint32_t)_dig.xy1) << 7));
  let val := to_int32 (to_uint32 (to_uint32 val
                + to_uint32 (to_uint32 inter * to_uint32 (to_uint32 dig.xy1 * 2 ^ 7))))
  -- val >>= 9;
  let val := asr val 9
  -- val += 0x100000;
  let val := to_int32 (val + 0x100000)
  -- val *= (txy2 + 0xA0);
  let val := to_int32 (val * to_int32 (txy2 + 0xA0))
  -- val >>= 12;
  let val := asr val 12
  -- val *= xy;
  let val := to_int32 (val * xy)
  -- val >>= 13;
  let val := asr val 13
  -- val += (txy1 << 3);
  let val := to_int32 (val + to_int32 (txy1 * 2 ^ 3))
  -- return val;   (conversion to int16_t)
  some (to_int16 val)

/-- The computation of the specification for `compensate_xy`: every step in signed 32-bit
two's-complement arithmetic, every right shift arithmetic, the division truncating, the
low 16 bits of the last value read as a signed 16-bit number.  `hall` enters the division
with its (unsigned) value. -/
def compensate_xy_spec (dig : Dig) (raw_axis hall trim1 trim2 : Int) : Int :=
  let inter := to_int32 (to_int32 (Int.tdiv (to_int32 (dig.xyz1 * 2 ^ 14)) hall) - 0x4000)
  let val := to_int32 (dig.xy2 * asr (to_int32 (inter * inter)) 7)
  let val := to_int32 (val + to_int32 (inter * to_int32 (dig.xy1 * 2 ^ 7)))
  let val := asr val 9
  let val := to_int32 (val + 0x100000)
  let val := to_int32 (val * to_int32 (trim2 + 0xA0))
  let val := asr val 12
  let val := to_int32 (val * raw_axis)
  let val := asr val 13
  let val := to_int32 (val + to_int32 (trim1 * 2 ^ 3))
  to_int16 val

/-- Modelled from the spec: `constrain_int32` of AP_Math, which is not among the sources;
the specification calls its result the value "clamped to the inclusive range". -/
def constrain_int32 (amt low high : Int) : Int :=
  if amt < low then low else if amt > high then high else amt

/-- The `int32_t` value of `dividend` at the division in `_compensate_z`.  The second
statement subtracts `(_dig.z3 * (rhall - _dig.xyz1)) >> 2`, whose operand `rhall` is a
`uint32_t`: the difference, the product and the shifted value are unsigned 32-bit, the
shift is logical, and the subtraction from `dividend` is unsigned before it is stored. -/
def _compensate_z_dividend (dig : Dig) (z rhall : Int) : Int :=
  -- int32_t dividend = ((int32_t)(z - _dig.z4)) << 15;
  let dividend := to_int32 (to_int32 (z - dig.z4) * 2 ^ 15)
  -- dividend -= (_dig.z3 * (rhall - _dig.xyz1)) >> 2;
  let diff := to_uint32 (to_uint32 rhall - to_uint32 dig.xyz1)
  let prod := to_uint32 (to_uint32 dig.z3 * diff)
  to_int32 (to_uint32 (to_uint32 dividend - lsr prod 2))

/-- The `int32_t` value of `divisor` at the division in `_compensate_z`. -/
def _compensate_z_divisor (dig : Dig) (rhall : Int) : Int :=
  -- int32_t divisor = ((int32_t)_dig.z1) * (rhall << 1);
  let divisor :=
    to_int32 (to_uint32 (to_uint32 (to_int32 dig.z1) * to_uint32 (to_uint32 rhall * 2)))
  -- divisor += 0x8000;
  let divisor := to_int32 (divisor + 0x8000)
  -- divisor >>= 16;
  let divisor := asr divisor 16
  -- divisor += _dig.z2;
  to_int32 (divisor + dig.z2)

/-- `AP_Compass_BMM150::_compensate_z(int16_t z, uint32_t rhall)`: the quotient is
constrained to `[-0x8000, 0x8000]` as an `int32_t` and then returned as an `int16_t`. -/
def _compensate_z (dig : Dig) (z rhall : Int) : Option Int := do
  -- return constrain_int32(dividend / divisor, -0x8000, 0x8000);
  let q ← sdiv32 (_compensate_z_dividend dig z rhall) (_compensate_z_divisor dig rhall)
  some (to_int16 (constrain_int32 q (-0x8000) 0x8000))

/-- The dividend of the specification for `compensate_z`:
`((raw_z - z4) << 15) - ((z3 * (hall - xyz1)) >> 2)` in signed 32-bit arithmetic with a
sign-preserving right shift. -/
def compensate_z_dividend_spec (dig : Dig) (raw_z hall : Int) : Int :=
  to_int32 (to_int32 (to_int32 (raw_z - dig.z4) * 2 ^ 15)
    - asr (to_int32 (dig.z3 * to_int32 (hall - dig.xyz1))) 2)

/-- The divisor of the specification for `compensate_z`:
`(((z1 * (hall << 1)) + 0x8000) >> 16) + z2` in signed 32-bit arithmetic. -/
def compensate_z_divisor_spec (dig : Dig) (hall : Int) : Int :=
  to_int32 (asr (to_int32 (to_int32 (dig.z1 * to_int32 (hall * 2)) + 0x8000)) 16 + dig.z2)

/-- The trim table `_load_trim_values` stores after reading a block of 21 zero bytes. -/
def dig_zero : Dig :=
  { x1 := 0, y1 := 0, x2 := 0, y2 := 0, z1 := 0, z2 := 0, z3 := 0, z4 := 0,
    xy1 := 0, xy2 := 0, xyz1 := 0 }

/-- Trim coefficients used to evaluate the compensation on concrete inputs; every 16-bit
coefficient is below 2^15, so the table reads the same whether the member is signed or not. -/
def dig_sample : Dig :=
  { x1 := 0, y1 := 0, x2 := 26, y2 := 26, z1 := 24747, z2 := 763, z3 := 1000, z4 := 0,
    xy1 := 29, xy2 := -3, xyz1 := 6753 }

/-! ## Register and value constants -/

def CHIP_ID_REG : Nat := 0x40
def CHIP_ID_VAL : Nat := 0x32
def POWER_AND_OPERATIONS_REG : Nat := 0x4B
def POWER_CONTROL_VAL : Nat := 1 <<< 0
def SOFT_RESET : Nat := (1 <<< 7) ||| (1 <<< 1)
def OP_MODE_SELF_TEST_ODR_REG : Nat := 0x4C
def NORMAL_MODE : Nat := 0 <<< 1
def ODR_30HZ : Nat := (1 <<< 3) ||| (1 <<< 4) ||| (1 <<< 5)
def ODR_20HZ : Nat := (1 <<< 3) ||| (0 <<< 4) ||| (1 <<< 5)
def DATA_X_LSB_REG : Nat := 0x42
def REPETITIONS_XY_REG : Nat := 0x51
def REPETITIONS_Z_REG : Nat := 0x52
def DIG_X1_REG : Nat := 0x5D
def MEASURE_TIME_USEC : Int := 10000

/-! ## Bytes on the bus -/

/-- One byte transferred on the bus. -/
abbrev Byte := Fin 256

/-- The value of an `int8_t` object holding the byte `b`. -/
def int8_of (b : Byte) : Int := if b.val < 128 then (b.val : Int) else (b.val : Int) - 256

/-- The value of a `le16_t` object whose two bytes, in address order, are `b0 b1`, as the
host reads it.  The Linux boards the file is compiled for are little-endian, so this is
also the value `le16toh` returns for it. -/
def le16 (b0 b1 : Byte) : Int := (b0.val : Int) + 256 * (b1.val : Int)

/-- Modelled from the spec: `le16toh` of AP_HAL (`utility/sparse-endian.h`), which is not
among the sources: the conversion of a little-endian 16-bit value to host byte order.  On
a little-endian host it swaps no byte and returns the `uint16_t` value of its argument. -/
def le16toh (x : Int) : Int := to_uint16 x

/-! ## Vectors of floats -/

/-- Modelled from the spec: `Vector3f` of AP_Math, which is not among the sources: three
`float` components with componentwise `+=`, `/=`, `*=` and `zero()`.  `F` stands for
`float`; the driver uses its addition, multiplication, division, zero and the conversion
from integers, and the embedding assumes no law about them. -/
structure Vector3f (F : Type) where
  x : F
  y : F
  z : F
deriving DecidableEq, Repr

/-- `a += b` on vectors. -/
def Vector3f.add {F : Type} [Add F] (a b : Vector3f F) : Vector3f F :=
  ⟨a.x + b.x, a.y + b.y, a.z + b.z⟩

/-- `a /= d` on a vector and a scalar. -/
def Vector3f.div {F : Type} [Div F] (a : Vector3f F) (d : F) : Vector3f F :=
  ⟨a.x / d, a.y / d, a.z / d⟩

/-- `a *= m` on a vector and a scalar. -/
def Vector3f.mul {F : Type} [Mul F] (a : Vector3f F) (m : F) : Vector3f F :=
  ⟨a.x * m, a.y * m, a.z * m⟩

/-- The vector after `zero()`. -/
def Vector3f.zero {F : Type} [Zero F] : Vector3f F := ⟨0, 0, 0⟩

/-! ## Calls to the collaborators -/

/-- Messages the driver prints on the console. -/
inductive Msg where
  | no_semaphore
  | wrong_id
  | bus_error
deriving DecidableEq, Repr

/-- One call the driver makes to the HAL (scheduler, bus lock, bus, console) or to the
frontend, with the arguments it passes and, for the lock and the bus, the outcome. -/
inductive Event (F : Type) where
  | suspend_timer_procs
  | resume_timer_procs
  | delay (ms : Nat)
  | take_blocking (ok : Bool)
  | take_nonblocking (ok : Bool)
  | give
  | write_register (reg val : Nat) (ok : Bool)
  | read_registers (reg len : Nat) (data : Option (List Byte))
  | printf (msg : Msg)
  | register_compass (inst : Nat)
  | set_dev_id (inst : Nat)
  | register_timer_process
  | rotate_field (inst : Nat)
  | publish_raw_field (field : Vector3f F) (time_usec : Int) (inst : Nat)
  | correct_field (inst : Nat)
  | publish_filtered_field (field : Vector3f F) (inst : Nat)
deriving DecidableEq, Repr

/-- A register read or write on the bus. -/
def Event.is_bus_transaction {F : Type} : Event F → Bool
  | .write_register _ _ _ => true
  | .read_registers _ _ _ => true
  | _ => false

/-- A raw sample handed to the frontend. -/
def Event.is_publish_raw {F : Type} : Event F → Bool
  | .publish_raw_field _ _ _ => true
  | _ => false

/-- A filtered sample handed to the frontend. -/
def Event.is_publish_filtered {F : Type} : Event F → Bool
  | .publish_filtered_field _ _ => true
  | _ => false

/-- A registration with the frontend (`register_compass`) or with the scheduler
(`register_timer_process`). -/
def Event.is_registration {F : Type} : Event F → Bool
  | .register_compass _ => true
  | .register_timer_process => true
  | _ => false

/-- A step of `init` that did not succeed: a lock acquisition or a bus transaction that
returned false, or the read of the identity register returning a byte other than
`CHIP_ID_VAL`. -/
def Event.is_failed_step {F : Type} : Event F → Bool
  | .take_blocking ok => !ok
  | .take_nonblocking ok => !ok
  | .write_register _ _ ok => !ok
  | .read_registers _ _ none => true
  | .read_registers reg _ (some data) => reg == CHIP_ID_REG && data != [⟨CHIP_ID_VAL, by decide⟩]
  | _ => false

/-- The frontend's `rotate_field` and `correct_field`, which rewrite the field in place from
state the frontend owns: taken as arbitrary functions of the field and the instance. -/
structure Frontend (F : Type) where
  rotate_field : Vector3f F → Nat → Vector3f F
  correct_field : Vector3f F → Nat → Vector3f F

/-! ## Driver state -/

/-- The data members of `AP_Compass_BMM150` the methods read and write.  The counter is a
natural number: its increment in `_update` is exact, which is the machine increment for every
counter width of four bits or more as long as the count stays below ten. -/
structure State (F : Type) where
  _dig : Dig
  _mag_accum : Vector3f F
  _accum_count : Nat
  _last_update_timestamp : Int
  _compass_instance : Nat
deriving DecidableEq, Repr

/-! ## Trim table loader -/

/-- Signedness of the 16-bit members of `_dig`.  The members are declared in the header,
which is not among the sources, and `le16toh` returns an unsigned value, so the conversion
made by each assignment in `_load_trim_values` is a parameter of the embedding. -/
structure DigDecl where
  z1_signed : Bool
  z2_signed : Bool
  z3_signed : Bool
  z4_signed : Bool
  xyz1_signed : Bool
deriving DecidableEq, Repr

/-- The value a 16-bit member holds after it is assigned the `uint16_t` value `v`. -/
def DigDecl.store (signed : Bool) (v : Int) : Int :=
  if signed then to_int16 v else to_uint16 v

/-- The 21 bytes of the packed structure `trim_registers`, in address order: the byte at
index `k` is the one read from register `DIG_X1_REG + k`. -/
abbrev TrimBlock := Fin 21 → Byte

/-- `AP_Compass_BMM150::_load_trim_values()`; `rd` is what the bus returns for the read of
`sizeof(trim_registers)` bytes at `DIG_X1_REG` (`none`: the read failed).  Offsets in the
packed structure: `dig_x1` 0, `dig_y1` 1, `rsv` 2-4, `dig_z4` 5-6, `dig_x2` 7, `dig_y2` 8,
`rsv2` 9-10, `dig_z2` 11-12, `dig_z1` 13-14, `dig_xyz1` 15-16, `dig_z3` 17-18, `dig_xy2` 19,
`dig_xy1` 20. -/
def _load_trim_values {F : Type} (decl : DigDecl) (s : State F) (rd : Option TrimBlock) :
    Bool × State F × List (Event F) :=
  match rd with
  | none => (false, s, [.read_registers DIG_X1_REG 21 none])
  | some t =>
    (true,
     { s with _dig :=
        { x1 := int8_of (t 0)
          x2 := int8_of (t 7)
          xy1 := ((t 20).val : Int)
          xy2 := int8_of (t 19)
          xyz1 := DigDecl.store decl.xyz1_signed (le16toh (le16 (t 15) (t 16)))
          y1 := int8_of (t 1)
          y2 := int8_of (t 8)
          z1 := DigDecl.store decl.z1_signed (le16toh (le16 (t 13) (t 14)))
          z2 := DigDecl.store decl.z2_signed (le16toh (le16 (t 11) (t 12)))
          z3 := DigDecl.store decl.z3_signed (le16toh (le16 (t 17) (t 18)))
          z4 := DigDecl.store decl.z4_signed (le16toh (le16 (t 5) (t 6))) } },
     [.read_registers DIG_X1_REG 21 (some (List.ofFn t))])

/-! ## Initializer -/

/-- What the lock, the bus and the frontend answer during one call of `init`, each answer
being used only if the call reaches the step that asks for it. -/
structure InitEnv where
  take : Bool
  soft_reset : Bool
  power_control : Bool
  chip_id : Option Byte
  trim : Option TrimBlock
  repetitions_xy : Bool
  repetitions_z : Bool
  op_mode : Bool
  register_compass : Nat

/-- The outcome of `init`: its return value, the driver state and the calls made, in order. -/
structure InitResult (F : Type) where
  ret : Bool
  state : State F
  trace : List (Event F)

/-- The code from the label `fail_sem` to the return. -/
def init_fail_sem {F : Type} (tr : List (Event F)) : List (Event F) :=
  tr ++ [.resume_timer_procs]

/-- The code from the label `fail` to the return. -/
def init_fail {F : Type} (tr : List (Event F)) : List (Event F) :=
  init_fail_sem (tr ++ [.give])

/-- The code from the label `bus_error` to the return. -/
def init_bus_error {F : Type} (tr : List (Event F)) : List (Event F) :=
  init_fail (tr ++ [.printf .bus_error])

/-- `AP_Compass_BMM150::init()`. -/
def init {F : Type} (decl : DigDecl) (s : State F) (env : InitEnv) : InitResult F :=
  -- hal.scheduler->suspend_timer_procs();
  let tr : List (Event F) := [.suspend_timer_procs]
  -- if (!_dev->get_semaphore()->take(HAL_SEMAPHORE_BLOCK_FOREVER)) { printf; goto fail_sem; }
  let tr := tr ++ [.take_blocking env.take]
  if env.take = false then ⟨false, s, init_fail_sem (tr ++ [.printf .no_semaphore])⟩ else
  -- ret = _dev->write_register(POWER_AND_OPERATIONS_REG, SOFT_RESET);
  let tr := tr ++ [.write_register POWER_AND_OPERATIONS_REG SOFT_RESET env.soft_reset]
  if env.soft_reset = false then ⟨false, s, init_bus_error tr⟩ else
  -- hal.scheduler->delay(2);
  let tr := tr ++ [.delay 2]
  -- ret = _dev->write_register(POWER_AND_OPERATIONS_REG, POWER_CONTROL_VAL);
  let tr := tr ++ [.write_register POWER_AND_OPERATIONS_REG POWER_CONTROL_VAL env.power_control]
  if env.power_control = false then ⟨false, s, init_bus_error tr⟩ else
  -- hal.scheduler->delay(2);
  let tr := tr ++ [.delay 2]
  -- ret = _dev->read_registers(CHIP_ID_REG, &val, 1);
  let tr := tr ++ [.read_registers CHIP_ID_REG 1 (env.chip_id.map fun b => [b])]
  match env.chip_id with
  | none => ⟨false, s, init_bus_error tr⟩
  | some val =>
    -- if (val != CHIP_ID_VAL) { printf; goto fail; }
    if val.val ≠ CHIP_ID_VAL then ⟨false, s, init_fail (tr ++ [.printf .wrong_id])⟩ else
    -- ret = _load_trim_values();
    let r := _load_trim_values decl s env.trim
    let s := r.2.1
    let tr := tr ++ r.2.2
    if r.1 = false then ⟨false, s, init_bus_error tr⟩ else
    -- ret = _dev->write_register(REPETITIONS_XY_REG, (47 - 1) / 2);
    let tr := tr ++ [.write_register REPETITIONS_XY_REG ((47 - 1) / 2) env.repetitions_xy]
    if env.repetitions_xy = false then ⟨false, s, init_bus_error tr⟩ else
    -- ret = _dev->write_register(REPETITIONS_Z_REG, 83 - 1);
    let tr := tr ++ [.write_register REPETITIONS_Z_REG (83 - 1) env.repetitions_z]
    if env.repetitions_z = false then ⟨false, s, init_bus_error tr⟩ else
    -- ret = _dev->write_register(OP_MODE_SELF_TEST_ODR_REG, NORMAL_MODE | ODR_30HZ);
    let tr := tr ++ [.write_register OP_MODE_SELF_TEST_ODR_REG (NORMAL_MODE ||| ODR_30HZ) env.op_mode]
    if env.op_mode = false then ⟨false, s, init_bus_error tr⟩ else
    -- _dev->get_semaphore()->give(); hal.scheduler->resume_timer_procs();
    let tr := tr ++ [.give, .resume_timer_procs]
    -- _compass_instance = register_compass(); set_dev_id(_compass_instance, ...);
    let s := { s with _compass_instance := env.register_compass }
    let tr := tr ++ [.register_compass env.register_compass, .set_dev_id s._compass_instance]
    -- hal.scheduler->register_timer_process(...);
    let tr := tr ++ [.register_timer_process]
    ⟨true, s, tr⟩

/-- `AP_Compass_BMM150::probe`.  `sensor` is the object `new` returns (`none`: a null
pointer); the result is the backend returned (`none`: `nullptr`) and the calls made. -/
def probe {F : Type} (decl : DigDecl) (sensor : Option (State F)) (env : InitEnv) :
    Option (State F) × List (Event F) :=
  match sensor with
  | none => (none, [])
  | some s =>
    let r := init decl s env
    if r.ret = false then (none, r.trace) else (some r.state, r.trace)

/-- Every step of `init` succeeds: the lock is acquired, the soft-reset write, the
power-state write, the identity read, the trim-block read, the two repetition writes and
the operating-mode write succeed, and the identity byte is `CHIP_ID_VAL` (0x32). -/
def InitEnv.every_step_succeeds (env : InitEnv) : Prop :=
  env.take = true ∧ env.soft_reset = true ∧ env.power_control = true
    ∧ env.chip_id.map Fin.val = some CHIP_ID_VAL ∧ env.trim.isSome = true
    ∧ env.repetitions_xy = true ∧ env.repetitions_z = true ∧ env.op_mode = true

/-! ## Sampling loop -/

/-- The 8 bytes of `le16_t data[4]`, in address order: the byte at index `k` is the one
read from register `DATA_X_LSB_REG + k`. -/
abbrev DataBlock := Fin 8 → Byte

/-- What the clock, the lock and the bus answer during one call of `_update`, each answer
being used only if the call reaches the step that asks for it. -/
structure UpdateEnv where
  micros : Int
  take_nonblocking : Bool
  read_registers : Option DataBlock

/-- The sample of one cycle: the rotated field that is published raw, and the corrected
field that is accumulated. -/
structure Sample (F : Type) where
  rotated : Vector3f F
  corrected : Vector3f F
deriving DecidableEq, Repr

/-- Lines 263-284 of `_update`: the field computed from the data registers once the read
succeeded and the data-ready bit is set.  `none` when a compensation divides by zero. -/
def _update_field {F : Type} [Mul F] [Div F] [IntCast F]
    (fe : Frontend F) (s : State F) (data : DataBlock) : Option (Sample F) := do
  -- const uint16_t rhall = le16toh(data[3] >> 2);
  let rhall := le16toh (asr (le16 (data 6) (data 7)) 2)
  -- _compensate_xy(((int16_t)le16toh(data[0])) >> 3, rhall, _dig.x1, _dig.x2)
  let x ← _compensate_xy s._dig (asr (to_int16 (le16toh (le16 (data 0) (data 1)))) 3) rhall
            s._dig.x1 s._dig.x2
  -- _compensate_xy(((int16_t)le16toh(data[1])) >> 3, rhall, _dig.y1, _dig.y2)
  let y ← _compensate_xy s._dig (asr (to_int16 (le16toh (le16 (data 2) (data 3)))) 3) rhall
            s._dig.y1 s._dig.y2
  -- _compensate_z(((int16_t)le16toh(data[2])) >> 1, rhall)
  let z ← _compensate_z s._dig (asr (to_int16 (le16toh (le16 (data 4) (data 5)))) 1) rhall
  let raw_field : Vector3f F := ⟨(x : F), (y : F), (z : F)⟩
  -- raw_field /= 16;
  let raw_field := raw_field.div ((16 : Int) : F)
  -- raw_field *= 10;
  let raw_field := raw_field.mul ((10 : Int) : F)
  -- rotate_field(raw_field, _compass_instance);
  let raw_field := fe.rotate_field raw_field s._compass_instance
  -- correct_field(raw_field, _compass_instance);
  some ⟨raw_field, fe.correct_field raw_field s._compass_instance⟩

/-- `AP_Compass_BMM150::_update()`: the state after the call and the calls made, in order;
`none` when a compensation divides by zero. -/
def _update {F : Type} [Add F] [Mul F] [Div F] [IntCast F]
    (fe : Frontend F) (s : State F) (env : UpdateEnv) : Option (State F × List (Event F)) :=
  -- const uint32_t time_usec = AP_HAL::micros();
  let time_usec := to_uint32 env.micros
  -- if (time_usec - _last_update_timestamp < MEASURE_TIME_USEC) return;
  if to_uint32 (time_usec - to_uint32 s._last_update_timestamp) < MEASURE_TIME_USEC then
    some (s, [])
  -- if (!_dev->get_semaphore()->take_nonblocking()) return;
  else if env.take_nonblocking = false then some (s, [.take_nonblocking false])
  else
    -- bool ret = _dev->read_registers(DATA_X_LSB_REG, (uint8_t *) &data, sizeof(data));
    -- _dev->get_semaphore()->give();
    let tr : List (Event F) :=
      [.take_nonblocking true,
       .read_registers DATA_X_LSB_REG 8 (env.read_registers.map List.ofFn), .give]
    -- if (!ret || !(data[3] & 0x1)) return;
    match env.read_registers with
    | none => some (s, tr)
    | some data =>
      if le16 (data 6) (data 7) % 2 = 0 then some (s, tr)
      else do
        let f ← _update_field fe s data
        -- publish_raw_field(raw_field, time_usec, _compass_instance);
        let tr := tr ++ [.rotate_field s._compass_instance,
                         .publish_raw_field f.rotated time_usec s._compass_instance,
                         .correct_field s._compass_instance]
        -- _mag_accum += raw_field;
        let accum := s._mag_accum.add f.corrected
        -- _accum_count++;
        let count := s._accum_count + 1
        -- if (_accum_count == 10) { _mag_accum /= 2; _accum_count = 5; }
        let s1 : State F :=
          if count = 10 then { s with _mag_accum := accum.div ((2 : Int) : F), _accum_count := 5 }
          else { s with _mag_accum := accum, _accum_count := count }
        -- _last_update_timestamp = time_usec;
        some ({ s1 with _last_update_timestamp := time_usec }, tr)

/-- The cycle is accepted: `_update` takes none of its three early returns (rate limit,
lock not acquired, read failed or data-ready bit clear). -/
def accepted {F : Type} (s : State F) (env : UpdateEnv) : Bool :=
  !decide (to_uint32 (to_uint32 env.micros - to_uint32 s._last_update_timestamp)
      < MEASURE_TIME_USEC)
    && env.take_nonblocking
    && match env.read_registers with
       | none => false
       | some data => decide (le16 (data 6) (data 7) % 2 ≠ 0)

/-! ## Read interface -/

/-- `AP_Compass_BMM150::read()`: the state after the call and the calls made, in order. -/
def read {F : Type} [Div F] [Zero F] [IntCast F] (s : State F) : State F × List (Event F) :=
  -- if (_accum_count == 0) return;
  if s._accum_count = 0 then (s, [])
  else
    -- Vector3f field(_mag_accum); field /= _accum_count;
    let field := s._mag_accum.div ((s._accum_count : Int) : F)
    -- _mag_accum.zero(); _accum_count = 0;  (between suspend and resume of the timer procs)
    ({ s with _mag_accum := Vector3f.zero, _accum_count := 0 },
     [.suspend_timer_procs, .resume_timer_procs,
      .publish_filtered_field field s._compass_instance])

/-- One invocation of the driver after initialisation: the scheduler calls `_update`, the
frontend calls `read`. -/
inductive Call where
  | update (env : UpdateEnv)
  | read

/-- The driver state after a sequence of invocations, or `none` when one of them divides by
zero. -/
def run {F : Type} [Add F] [Mul F] [Div F] [Zero F] [IntCast F]
    (fe : Frontend F) : State F → List Call → Option (State F)
  | s, [] => some s
  | s, .update env :: cs => (_update fe s env).bind fun r => run fe r.1 cs
  | s, .read :: cs => run fe (read s).1 cs

/-- No compensation of the cycle divides by zero, whatever the driver state apart from the
trim table: when the data read sets the data-ready bit, the hall value is not zero and the
division of `_compensate_z` is defined. -/
def UpdateEnv.defined (dig : Dig) (env : UpdateEnv) : Bool :=
  match env.read_registers with
  | none => true
  | some data =>
    decide (le16 (data 6) (data 7) % 2 = 0)
      || (decide (le16toh (asr (le16 (data 6) (data 7)) 2) ≠ 0)
          && (_compensate_z dig (asr (to_int16 (le16toh (le16 (data 4) (data 5)))) 1)
                (le16toh (asr (le16 (data 6) (data 7)) 2))).isSome)

/-- Every `_update` of the sequence satisfies `UpdateEnv.defined`. -/
def Call.all_defined (dig : Dig) : List Call → Bool
  | [] => true
  | .update env :: cs => env.defined dig && Call.all_defined dig cs
  | .read :: cs => Call.all_defined dig cs

/-- The calls of `init` that concern the bus lock. -/
def Event.is_lock_call {F : Type} : Event F → Bool
  | .take_blocking _ => true
  | .take_nonblocking _ => true
  | .give => true
  | _ => false

/-- The calls of `init` that suspend or resume the scheduler's timer procedures. -/
def Event.is_scheduler_suspension {F : Type} : Event F → Bool
  | .suspend_timer_procs => true
  | .resume_timer_procs => true
  | _ => false

/-- No bus transaction is issued after the first failed step of the trace. -/
def no_bus_transaction_after_failed_step {F : Type} : List (Event F) → Bool
  | [] => true
  | e :: rest =>
    if e.is_failed_step then rest.all fun e1 => !e1.is_bus_transaction
    else no_bus_transaction_after_failed_step rest

/-- A data block with the given four registers, low byte first. -/
def data_block (b0 b1 b2 b3 b4 b5 b6 b7 : Byte) : DataBlock :=
  fun i => [b0, b1, b2, b3, b4, b5, b6, b7].getD i.val 0

/-! ## Concrete inputs -/

/-- A frontend that neither rotates nor corrects, over the integers. -/
def frontend_id : Frontend Int := ⟨fun v _ => v, fun v _ => v⟩

/-- The driver state after construction and a trim table of `dig_sample`: the accumulator
is empty. -/
def state_empty : State Int := ⟨dig_sample, ⟨0, 0, 0⟩, 0, 0, 0⟩

/-- A state whose accumulator holds nine samples. -/
def state_nine : State Int := ⟨dig_sample, ⟨900, -1800, 90000⟩, 9, 0, 0⟩

/-- A state over the rationals whose accumulator holds five samples. -/
def state_five : State ℚ := ⟨dig_sample, ⟨10, 20, -35⟩, 5, 0, 3⟩

/-- The eight data bytes for X = -100 << 3, Y = 50 << 3, Z = 3000 << 1 and the fourth
register (7000 << 2) | 1: data ready, hall 7000. -/
def data_sample : DataBlock := data_block 224 252 144 1 112 23 97 109

/-- The data bytes of `data_sample` with the data-ready bit clear. -/
def data_not_ready : DataBlock := data_block 224 252 144 1 112 23 96 109

/-- A cycle at time `t` that gets the lock and reads `data_sample`. -/
def env_sample (t : Int) : UpdateEnv := ⟨t, true, some data_sample⟩

/-- The 16-bit members `z1` and `xyz1` unsigned, `z2`, `z3` and `z4` signed. -/
def decl_sample : DigDecl := ⟨false, true, true, true, false⟩

/-- An initialisation in which every transaction succeeds and the identity register reads
0x33. -/
def env_wrong_id : InitEnv := ⟨true, true, true, some 0x33, some fun _ => 0, true, true, true, 0⟩

/-- An initialisation in which every step succeeds. -/
def env_all_ok : InitEnv := ⟨true, true, true, some 0x32, some fun _ => 0, true, true, true, 0⟩

/-! ## Trim register addresses -/

def DIG_Y1_REG : Nat := 0x5E
def DIG_Z4_LSB_REG : Nat := 0x62
def DIG_Z4_MSB_REG : Nat := 0x63
def DIG_X2_REG : Nat := 0x64
def DIG_Y2_REG : Nat := 0x65
def DIG_Z2_LSB_REG : Nat := 0x68
def DIG_Z2_MSB_REG : Nat := 0x69
def DIG_Z1_LSB_REG : Nat := 0x6A
def DIG_Z1_MSB_REG : Nat := 0x6B
def DIG_XYZ1_LSB_REG : Nat := 0x6C
def DIG_XYZ1_MSB_REG : Nat := 0x6D
def DIG_Z3_LSB_REG : Nat := 0x6E
def DIG_Z3_MSB_REG : Nat := 0x6F
def DIG_XY2_REG : Nat := 0x70
def DIG_XY1_REG : Nat := 0x71

/-- The byte of a trim block that was read from register `reg` (zero for a register outside
the block). -/
def trim_byte (t : TrimBlock) (reg : Nat) : Byte :=
  if h : reg - DIG_X1_REG < 21 then t ⟨reg - DIG_X1_REG, h⟩ else 0

/-- The registers of the trim block that hold no coefficient: 0x5F-0x61 (`rsv`) and
0x66-0x67 (`rsv2`). -/
def reserved_trim_registers : List Nat := [0x5F, 0x60, 0x61, 0x66, 0x67]

/-! ## Steps of the read interface -/

/-- An access of `read()` to the accumulator shared with `_update`. -/
inductive Access where
  | test_accum_count
  | load_mag_accum
  | load_accum_count
  | store_mag_accum
  | store_accum_count
deriving DecidableEq, Repr

/-- One step of `read()`: an access to the accumulator or a call to a collaborator. -/
inductive ReadStep (F : Type) where
  | access (a : Access)
  | call (e : Event F)
deriving DecidableEq, Repr

/-- The call of a step, if it is one. -/
def ReadStep.call_of {F : Type} : ReadStep F → Option (Event F)
  | .call e => some e
  | .access _ => none

/-- `AP_Compass_BMM150::read()` statement by statement: the accesses to `_accum_count` and
`_mag_accum` and the calls, in program order. -/
def read_steps {F : Type} [Div F] [IntCast F] (s : State F) : List (ReadStep F) :=
  -- if (_accum_count == 0) return;
  if s._accum_count = 0 then [.access .test_accum_count]
  else
    [.access .test_accum_count,
     -- hal.scheduler->suspend_timer_procs();
     .call .suspend_timer_procs,
     -- Vector3f field(_mag_accum);
     .access .load_mag_accum,
     -- field /= _accum_count;
     .access .load_accum_count,
     -- _mag_accum.zero();
     .access .store_mag_accum,
     -- _accum_count = 0;
     .access .store_accum_count,
     -- hal.scheduler->resume_timer_procs();
     .call .resume_timer_procs,
     -- publish_filtered_field(field, _compass_instance);
     .call (.publish_filtered_field (s._mag_accum.div ((s._accum_count : Int) : F))
              s._compass_instance)]

/-- Every access to the accumulator in the list is made while the timer procedures are
suspended; `suspended` tells whether they are at the start of the list. -/
def accesses_enclosed {F : Type} : Bool → List (ReadStep F) → Bool
  | _, [] => true
  | _, .call .suspend_timer_procs :: rest => accesses_enclosed true rest
  | _, .call .resume_timer_procs :: rest => accesses_enclosed false rest
  | suspended, .call _ :: rest => accesses_enclosed suspended rest
  | suspended, .access _ :: rest => suspended && accesses_enclosed suspended rest

/-! ## Samples of a run -/

/-- The corrected sample the cycle adds to the accumulator, if the cycle is accepted and
its compensation is defined. -/
def cycle_sample {F : Type} [Mul F] [Div F] [IntCast F]
    (fe : Frontend F) (s : State F) (env : UpdateEnv) : Option (Vector3f F) :=
  if accepted s env then
    (env.read_registers.bind (_update_field fe s)).map Sample.corrected
  else none

/-- The corrected samples accepted by the cycles of a run, in order. -/
def accepted_samples {F : Type} [Add F] [Mul F] [Div F] [Zero F] [IntCast F]
    (fe : Frontend F) : State F → List Call → List (Vector3f F)
  | _, [] => []
  | s, .update env :: cs =>
    match _update fe s env with
    | none => []
    | some r => (cycle_sample fe s env).toList ++ accepted_samples fe r.1 cs
  | s, .read :: cs => accepted_samples fe (read s).1 cs

/-- The corrected samples accepted since the last `read()` that drained the accumulator,
in order; `acc` holds those accepted before the run. -/
def pending_samples {F : Type} [Add F] [Mul F] [Div F] [Zero F] [IntCast F]
    (fe : Frontend F) : State F → List (Vector3f F) → List Call → List (Vector3f F)
  | _, acc, [] => acc
  | s, acc, .update env :: cs =>
    match _update fe s env with
    | none => acc
    | some r => pending_samples fe r.1 (acc ++ (cycle_sample fe s env).toList) cs
  | s, acc, .read :: cs =>
    pending_samples fe (read s).1 (if s._accum_count = 0 then acc else []) cs

/-- Every component of the vector has absolute value at most `M`. -/
def Vector3f.bounded (M : ℚ) (v : Vector3f ℚ) : Prop :=
  |v.x| ≤ M ∧ |v.y| ≤ M ∧ |v.z| ≤ M

/-- A frontend over the rationals that neither rotates nor corrects. -/
def frontend_q : Frontend ℚ := ⟨fun v _ => v, fun v _ => v⟩

/-- The state of `state_empty` over the rationals. -/
def state_empty_q : State ℚ := ⟨dig_sample, ⟨0, 0, 0⟩, 0, 0, 0⟩

/-- A data block whose fourth register is 1: data ready, hall 0. -/
def data_hall_zero : DataBlock := data_block 224 252 144 1 112 23 1 0

/-- A trim block with the bytes 1 to 21. -/
def trim_sample : TrimBlock := fun i => ⟨i.val + 1, by omega⟩

/-- A trim block whose coefficient bytes have their high bit set where it matters:
0x5D = 0xFF, 0x5E = 0x80, 0x62/0x63 = 0x34 0x92, 0x64 = 0x1A, 0x65 = 0xE6,
0x68/0x69 = 0xFB 0x02, 0x6A/0x6B = 0xAB 0x60, 0x6C/0x6D = 0x61 0x9A, 0x6E/0x6F = 0x18 0xFC,
0x70 = 0xFD, 0x71 = 0xC8; the reserved registers hold 0x11 0x22 0x33 and 0x44 0x55. -/
def trim_high : TrimBlock :=
  fun i => [0xFF, 0x80, 0x11, 0x22, 0x33, 0x34, 0x92, 0x1A, 0xE6, 0x44, 0x55, 0xFB, 0x02,
            0xAB, 0x60, 0x61, 0x9A, 0x18, 0xFC, 0xFD, 0xC8].getD i.val 0

/-- The block `trim_high` with the reserved registers holding 0xEE instead. -/
def trim_high_reserved : TrimBlock :=
  fun i => [0xFF, 0x80, 0xEE, 0xEE, 0xEE, 0x34, 0x92, 0x1A, 0xE6, 0xEE, 0xEE, 0xFB, 0x02,
            0xAB, 0x60, 0x61, 0x9A, 0x18, 0xFC, 0xFD, 0xC8].getD i.val 0

/-- The block `trim_sample` with other bytes in the reserved registers. -/
def trim_sample_reserved : TrimBlock :=
  fun i => if i.val = 2 ∨ i.val = 3 ∨ i.val = 4 ∨ i.val = 9 ∨ i.val = 10 then 255
           else ⟨i.val + 1, by omega⟩

/-- The accumulator is a weighted sum of the pending samples `acc`: positive weights that
add up to the count. -/
def weighted_by (s : State ℚ) (acc : List (Vector3f ℚ)) (ws : List (ℚ × Vector3f ℚ)) : Prop :=
  ws.map Prod.snd = acc
    ∧ (∀ p ∈ ws, 0 < p.1)
    ∧ (ws.map Prod.fst).sum = s._accum_count
    ∧ s._mag_accum.x = (ws.map fun p => p.1 * p.2.x).sum
    ∧ s._mag_accum.y = (ws.map fun p => p.1 * p.2.y).sum
    ∧ s._mag_accum.z = (ws.map fun p => p.1 * p.2.z).sum

/-- The corrected sample of the cycle `env_sample t` with the trim table `dig_sample`. -/
def sample_q : Vector3f ℚ :=
  ((Vector3f.mk ((-579 : Int) : ℚ) ((289 : Int) : ℚ) ((16238 : Int) : ℚ)).div
    ((16 : Int) : ℚ)).mul ((10 : Int) : ℚ)

/-- The state after the cycle `env_sample 10000` from `state_empty_q`. -/
def state_one_q : State ℚ :=
  ⟨dig_sample, state_empty_q._mag_accum.add sample_q, 1, 10000, 0⟩

/-! ## Theorems: machine integers -/

theorem to_int32_emod (x : Int) : to_int32 x % 4294967296 = x % 4294967296 := by
  unfold to_int32; omega

theorem to_uint32_emod (x : Int) : to_uint32 x % 4294967296 = x % 4294967296 := by
  unfold to_uint32; omega

theorem to_int32_congr {a b : Int} (h : a % 4294967296 = b % 4294967296) :
    to_int32 a = to_int32 b := by
  unfold to_int32; omega

theorem to_int32_of_range {x : Int} (h0 : -2147483648 ≤ x) (h1 : x < 2147483648) :
    to_int32 x = x := by
  unfold to_int32; omega

theorem to_uint32_of_range {x : Int} (h0 : 0 ≤ x) (h1 : x < 4294967296) :
    to_uint32 x = x := by
  unfold to_uint32; omega

theorem to_int32_to_uint32 (x : Int) : to_int32 (to_uint32 x) = to_int32 x :=
  to_int32_congr (by rw [to_uint32_emod])

theorem mul_emod_congr {a b c d m : Int} (h1 : a % m = c % m) (h2 : b % m = d % m) :
    (a * b) % m = (c * d) % m := by
  rw [Int.mul_emod, h1, h2, ← Int.mul_emod]

theorem add_emod_congr {a b c d m : Int} (h1 : a % m = c % m) (h2 : b % m = d % m) :
    (a + b) % m = (c + d) % m := by
  rw [Int.add_emod, h1, h2, ← Int.add_emod]

/-- The unsigned multiply-and-add of `_compensate_xy` stores the same `int32_t` as the
signed one. -/
theorem unsigned_mul_add_eq_signed (v i x : Int) :
    to_int32 (to_uint32 (to_uint32 v + to_uint32 (to_uint32 i * to_uint32 (to_uint32 x * 2 ^ 7))))
      = to_int32 (v + to_int32 (i * to_int32 (x * 2 ^ 7))) := by
  apply to_int32_congr
  rw [to_uint32_emod]
  apply add_emod_congr (to_uint32_emod _)
  rw [to_uint32_emod, to_int32_emod]
  apply mul_emod_congr (to_uint32_emod _)
  rw [to_uint32_emod, to_int32_emod]
  exact mul_emod_congr (to_uint32_emod _) rfl

/-! ## Theorems: compensation engine -/

/-- C1. For every `raw_axis`, every non-zero `hall` of type `uint32_t`, every `trim1`,
`trim2` and every trim table (`xyz1` being the unsigned 16-bit value `le16toh` returns),
`_compensate_xy` returns a value, and it is the low 16 bits, read as signed, of the
computation of the specification carried out in wrapping signed 32-bit arithmetic with
arithmetic right shifts. -/
theorem compensate_xy_refines_spec (dig : Dig) (raw_axis hall trim1 trim2 : Int)
    (hxyz1 : 0 ≤ dig.xyz1 ∧ dig.xyz1 < 65536) (hhall : 0 < hall ∧ hall < 4294967296) :
    _compensate_xy dig raw_axis hall trim1 trim2
      = some (compensate_xy_spec dig raw_axis hall trim1 trim2) := by
  obtain ⟨hx0, hx1⟩ := hxyz1
  obtain ⟨hh0, hh1⟩ := hhall
  have hxyz : to_int32 dig.xyz1 = dig.xyz1 := to_int32_of_range (by omega) (by omega)
  have hnum : to_int32 (dig.xyz1 * 2 ^ 14) = dig.xyz1 * 2 ^ 14 :=
    to_int32_of_range (by omega) (by omega)
  have hnum0 : 0 ≤ dig.xyz1 * 2 ^ 14 := by omega
  have hnumu : to_uint32 (dig.xyz1 * 2 ^ 14) = dig.xyz1 * 2 ^ 14 :=
    to_uint32_of_range (by omega) (by omega)
  have hhallu : to_uint32 hall = hall := to_uint32_of_range (by omega) (by omega)
  have hdiv : udiv32 (to_int32 (to_int32 dig.xyz1 * 2 ^ 14)) hall
      = some (Int.tdiv (to_int32 (dig.xyz1 * 2 ^ 14)) hall) := by
    unfold udiv32
    rw [hxyz, hnum, hnumu, hhallu, if_neg (by omega), Int.tdiv_eq_ediv hnum0 (by omega)]
  simp only [_compensate_xy, compensate_xy_spec, hdiv, Option.bind_eq_bind, Option.some_bind,
    Option.pure_def, unsigned_mul_add_eq_signed]

/-- Witness for C1: the trim table `dig_sample`, raw axis -100, hall 6700. -/
theorem compensate_xy_refines_spec_witness :
    _compensate_xy dig_sample (-100) 6700 0 26
      = some (compensate_xy_spec dig_sample (-100) 6700 0 26) :=
  compensate_xy_refines_spec dig_sample (-100) 6700 0 26 (by decide) (by decide)

/-- C2. With the trim table `dig_sample`, `raw_z = 100` and `hall = 6700 < xyz1 = 6753`, the
intermediate `z3 * (hall - xyz1)` is negative, the divisor of the specification is 5823 and
its quotient is 565, inside `[-32768, 32767]`; `_compensate_z` returns -32768, because it
forms the intermediate and shifts it right as unsigned 32-bit values. -/
theorem compensate_z_negative_intermediate :
    dig_sample.z3 * (6700 - dig_sample.xyz1) < 0
      ∧ compensate_z_divisor_spec dig_sample 6700 = 5823
      ∧ Int.tdiv (compensate_z_dividend_spec dig_sample 100 6700)
          (compensate_z_divisor_spec dig_sample 6700) = 565
      ∧ _compensate_z_dividend dig_sample 100 6700
          = compensate_z_dividend_spec dig_sample 100 6700 - 1073741824
      ∧ _compensate_z dig_sample 100 6700 = some (-32768) := by
  decide

/-- C3. With the trim table `dig_sample`, `raw_z = 16383` and `hall = 6753`, the divisor is
5863 and the quotient 91563 is above the range; `_compensate_z` returns -32768, the
`int16_t` conversion of the upper bound 32768 of `constrain_int32`, not 32768. -/
theorem compensate_z_upper_bound_wraps :
    _compensate_z_divisor dig_sample 6753 = 5863
      ∧ sdiv32 (_compensate_z_dividend dig_sample 16383 6753)
          (_compensate_z_divisor dig_sample 6753) = some 91563
      ∧ constrain_int32 91563 (-0x8000) 0x8000 = 32768
      ∧ _compensate_z dig_sample 16383 6753 = some (-32768) := by
  decide

/-- C4. Whenever the divisor computed by `_compensate_z` is zero, the function reaches the
division with that divisor: no guard returns a value first, and the result is undefined. -/
theorem compensate_z_zero_divisor_unguarded (dig : Dig) (z rhall : Int)
    (h : _compensate_z_divisor dig rhall = 0) : _compensate_z dig z rhall = none := by
  simp [_compensate_z, sdiv32, h]

/-- Witness for C4: after a trim block of zero bytes the divisor is zero for every hall
value, here for `raw_z = 100` and `hall = 6700`. -/
theorem compensate_z_zero_divisor_unguarded_witness :
    _compensate_z_divisor dig_zero 6700 = 0 ∧ _compensate_z dig_zero 100 6700 = none :=
  ⟨by decide, compensate_z_zero_divisor_unguarded dig_zero 100 6700 (by decide)⟩

/-! ## Theorems: sampling loop and read interface -/

theorem update_skip_of_not_accepted {F : Type} [Add F] [Mul F] [Div F] [IntCast F] 
    (fe : Frontend F) (s : State F) (env : UpdateEnv)
    (h : accepted s env = false) :
    ∃ tr, _update fe s env = some (s, tr) ∧ ∀ e ∈ tr, e.is_publish_raw = false := by
  unfold accepted at h
  unfold _update
  by_cases hr : to_uint32 (to_uint32 env.micros - to_uint32 s._last_update_timestamp)
      < MEASURE_TIME_USEC
  · exact ⟨[], by simp [hr]⟩
  · cases ht : env.take_nonblocking with
    | false => exact ⟨[.take_nonblocking false], by simp [hr, Event.is_publish_raw]⟩
    | true =>
      cases hd : env.read_registers with
      | none =>
        exact ⟨[.take_nonblocking true, .read_registers DATA_X_LSB_REG 8 none, .give],
          by simp [hr], by simp [Event.is_publish_raw]⟩
      | some data =>
        have hb : le16 (data 6) (data 7) % 2 = 0 := by
          simpa [hr, ht, hd] using h
        exact ⟨[.take_nonblocking true,
            .read_registers DATA_X_LSB_REG 8 (some (List.ofFn data)), .give],
          by simp [hr, hb], by simp [Event.is_publish_raw]⟩

theorem update_of_accepted {F : Type} [Add F] [Mul F] [Div F] [IntCast F] 
    (fe : Frontend F) (s : State F) (env : UpdateEnv)
    (data : DataBlock) (f : Sample F)
    (h : accepted s env = true) (hd : env.read_registers = some data)
    (hf : _update_field fe s data = some f) :
    _update fe s env = some
      ({ (if s._accum_count + 1 = 10
            then { s with _mag_accum := (s._mag_accum.add f.corrected).div ((2 : Int) : F),
                          _accum_count := 5 }
            else { s with _mag_accum := s._mag_accum.add f.corrected,
                          _accum_count := s._accum_count + 1 } : State F) with
          _last_update_timestamp := to_uint32 env.micros },
       [.take_nonblocking true, .read_registers DATA_X_LSB_REG 8 (some (List.ofFn data)), .give,
        .rotate_field s._compass_instance,
        .publish_raw_field f.rotated (to_uint32 env.micros) s._compass_instance,
        .correct_field s._compass_instance]) := by
  unfold accepted at h
  simp only [hd, Bool.and_eq_true, Bool.not_eq_true', decide_eq_false_iff_not,
    decide_eq_true_eq] at h
  obtain ⟨⟨hr, ht⟩, hb⟩ := h
  unfold _update
  simp [hr, ht, hd, hb, hf]

theorem accepted_data {F : Type} 
    (s : State F) (env : UpdateEnv) (h : accepted s env = true) :
    ∃ data, env.read_registers = some data ∧ le16 (data 6) (data 7) % 2 ≠ 0 := by
  unfold accepted at h
  cases hd : env.read_registers with
  | none => simp [hd] at h
  | some data =>
    simp only [hd, Bool.and_eq_true, decide_eq_true_eq] at h
    exact ⟨data, rfl, h.2⟩

theorem update_undefined {F : Type} [Add F] [Mul F] [Div F] [IntCast F] 
    (fe : Frontend F) (s : State F) (env : UpdateEnv) (data : DataBlock)
    (h : accepted s env = true) (hd : env.read_registers = some data)
    (hf : _update_field fe s data = none) : _update fe s env = none := by
  unfold accepted at h
  simp only [hd, Bool.and_eq_true, Bool.not_eq_true', decide_eq_false_iff_not,
    decide_eq_true_eq] at h
  obtain ⟨⟨hr, ht⟩, hb⟩ := h
  unfold _update
  simp [hr, ht, hd, hb, hf]

theorem update_count_lt {F : Type} [Add F] [Mul F] [Div F] [IntCast F] 
    (fe : Frontend F) (s s1 : State F) (env : UpdateEnv)
    (tr : List (Event F)) (hc : s._accum_count < 10) (h : _update fe s env = some (s1, tr)) :
    s1._accum_count < 10 := by
  cases ha : accepted s env with
  | false =>
    obtain ⟨tr1, h1, _⟩ := update_skip_of_not_accepted fe s env ha
    rw [h1] at h
    cases h
    exact hc
  | true =>
    obtain ⟨data, hd, _⟩ := accepted_data s env ha
    cases hf : _update_field fe s data with
    | none => rw [update_undefined fe s env data ha hd hf] at h; cases h
    | some f =>
      rw [update_of_accepted fe s env data f ha hd hf] at h
      cases h
      by_cases h10 : s._accum_count + 1 = 10
      · simp [h10]
      · simp only [h10, if_false]; omega

theorem update_dig {F : Type} [Add F] [Mul F] [Div F] [IntCast F] 
    (fe : Frontend F) (s s1 : State F) (env : UpdateEnv)
    (tr : List (Event F)) (h : _update fe s env = some (s1, tr)) : s1._dig = s._dig := by
  cases ha : accepted s env with
  | false =>
    obtain ⟨tr1, h1, _⟩ := update_skip_of_not_accepted fe s env ha
    rw [h1] at h
    cases h
    rfl
  | true =>
    obtain ⟨data, hd, _⟩ := accepted_data s env ha
    cases hf : _update_field fe s data with
    | none => rw [update_undefined fe s env data ha hd hf] at h; cases h
    | some f =>
      rw [update_of_accepted fe s env data f ha hd hf] at h
      cases h
      by_cases h10 : s._accum_count + 1 = 10 <;> simp [h10]

theorem le16toh_range (x : Int) : 0 ≤ le16toh x ∧ le16toh x < 65536 := by
  unfold le16toh to_uint16; omega

theorem compensate_xy_defined (dig : Dig) (xy rhall txy1 txy2 : Int)
    (h : to_uint32 rhall ≠ 0) : ∃ v, _compensate_xy dig xy rhall txy1 txy2 = some v := by
  simp [_compensate_xy, udiv32, h]

theorem update_field_defined {F : Type} [Mul F] [Div F] [IntCast F] 
    (fe : Frontend F) (s : State F) (data : DataBlock)
    (hh : le16toh (asr (le16 (data 6) (data 7)) 2) ≠ 0)
    (hz : (_compensate_z s._dig (asr (to_int16 (le16toh (le16 (data 4) (data 5)))) 1)
            (le16toh (asr (le16 (data 6) (data 7)) 2))).isSome = true) :
    ∃ f, _update_field fe s data = some f := by
  have hr := le16toh_range (asr (le16 (data 6) (data 7)) 2)
  have hu : to_uint32 (le16toh (asr (le16 (data 6) (data 7)) 2)) ≠ 0 := by
    rw [to_uint32_of_range hr.1 (by omega)]; exact hh
  obtain ⟨x, hx⟩ := compensate_xy_defined s._dig
    (asr (to_int16 (le16toh (le16 (data 0) (data 1)))) 3) _ s._dig.x1 s._dig.x2 hu
  obtain ⟨y, hy⟩ := compensate_xy_defined s._dig
    (asr (to_int16 (le16toh (le16 (data 2) (data 3)))) 3) _ s._dig.y1 s._dig.y2 hu
  obtain ⟨z, hz1⟩ := Option.isSome_iff_exists.mp hz
  simp [_update_field, hx, hy, hz1]

theorem update_defined {F : Type} [Add F] [Mul F] [Div F] [IntCast F] 
    (fe : Frontend F) (s : State F) (env : UpdateEnv)
    (h : env.defined s._dig = true) : ∃ r, _update fe s env = some r := by
  cases ha : accepted s env with
  | false =>
    obtain ⟨tr1, h1, _⟩ := update_skip_of_not_accepted fe s env ha
    exact ⟨_, h1⟩
  | true =>
    obtain ⟨data, hd, hb⟩ := accepted_data s env ha
    unfold UpdateEnv.defined at h
    simp only [hd, Bool.or_eq_true, decide_eq_true_eq, hb, false_or, Bool.and_eq_true] at h
    obtain ⟨f, hf⟩ := update_field_defined fe s data h.1 h.2
    exact ⟨_, update_of_accepted fe s env data f ha hd hf⟩



theorem read_count_lt {F : Type} [Div F] [Zero F] [IntCast F] 
    (s : State F) : (read s).1._accum_count < 10 ∨ (read s).1 = s := by
  unfold read
  by_cases h : s._accum_count = 0 <;> simp [h]

theorem run_count_lt {F : Type} [Add F] [Mul F] [Div F] [Zero F] [IntCast F] 
    (fe : Frontend F) (calls : List Call) :
    ∀ (s0 s : State F), s0._accum_count < 10 → run fe s0 calls = some s →
      s._accum_count < 10 := by
  induction calls with
  | nil => intro s0 s h0 h; simp only [run, Option.some.injEq] at h; subst h; exact h0
  | cons c cs ih =>
    intro s0 s h0 h
    cases c with
    | update env =>
      simp only [run] at h
      cases hu : _update fe s0 env with
      | none => simp [hu] at h
      | some r =>
        obtain ⟨s1, tr⟩ := r
        simp only [hu, Option.some_bind] at h
        exact ih s1 s (update_count_lt fe s0 s1 env tr h0 hu) h
    | read =>
      simp only [run] at h
      refine ih (read s0).1 s ?_ h
      rcases read_count_lt s0 with h1 | h1
      · exact h1
      · rw [h1]; exact h0

theorem run_defined {F : Type} [Add F] [Mul F] [Div F] [Zero F] [IntCast F] 
    (fe : Frontend F) (dig : Dig) (calls : List Call) :
    ∀ (s0 : State F), s0._dig = dig → Call.all_defined dig calls = true →
      ∃ s, run fe s0 calls = some s := by
  induction calls with
  | nil => intro s0 _ _; exact ⟨s0, rfl⟩
  | cons c cs ih =>
    intro s0 hdig h
    cases c with
    | update env =>
      simp only [Call.all_defined, Bool.and_eq_true] at h
      obtain ⟨r, hr⟩ := update_defined fe s0 env (by rw [hdig]; exact h.1)
      obtain ⟨s1, tr⟩ := r
      obtain ⟨s, hs⟩ := ih s1 (by rw [update_dig fe s0 s1 env tr hr]; exact hdig) h.2
      exact ⟨s, by simp [run, hr, hs]⟩
    | read =>
      simp only [Call.all_defined] at h
      obtain ⟨s, hs⟩ := ih (read s0).1 (by unfold read; split <;> simp [hdig]) h
      exact ⟨s, by simp [run, hs]⟩


theorem rate_limit_emod (t l : Int) :
    to_uint32 (to_uint32 t - to_uint32 l) = (t - l) % 4294967296 := by
  unfold to_uint32; omega

/-- C5. Starting from a count of 0, every state reached by a sequence of `_update` and
`read` invocations has a count below 10, and the sequence does reach a state whenever no
accepted cycle of it divides by zero; an accepted cycle entered with a count of 9 leaves the
count 5 and the sum `(previous sum + corrected sample) / 2`. -/
theorem accum_count_invariant {F : Type} [Add F] [Mul F] [Div F] [Zero F] [IntCast F]
    (fe : Frontend F) :
    (∀ (s0 s : State F) (calls : List Call), s0._accum_count = 0 →
        run fe s0 calls = some s → s._accum_count < 10)
    ∧ (∀ (s0 : State F) (calls : List Call), s0._accum_count = 0 →
        Call.all_defined s0._dig calls = true →
        ∃ s, run fe s0 calls = some s ∧ s._accum_count < 10)
    ∧ (∀ (s : State F) (env : UpdateEnv) (data : DataBlock) (f : Sample F),
        accepted s env = true → env.read_registers = some data →
        _update_field fe s data = some f → s._accum_count + 1 = 10 →
        ∃ tr, _update fe s env = some
          ({ s with _mag_accum := (s._mag_accum.add f.corrected).div ((2 : Int) : F),
                    _accum_count := 5,
                    _last_update_timestamp := to_uint32 env.micros }, tr)) := by
  refine ⟨?_, ?_, ?_⟩
  · intro s0 s calls h0 h
    exact run_count_lt fe calls s0 s (by omega) h
  · intro s0 calls h0 hd
    obtain ⟨s, hs⟩ := run_defined fe s0._dig calls s0 rfl hd
    exact ⟨s, hs, run_count_lt fe calls s0 s (by omega) hs⟩
  · intro s env data f ha hd hf h10
    rw [update_of_accepted fe s env data f ha hd hf, if_pos h10]
    exact ⟨_, rfl⟩

/-- Witness for C5: two accepted cycles and a rate-limited one from the empty state, and an
accepted cycle from a state holding nine samples. -/
theorem accum_count_invariant_witness :
    (2 : Nat) < 10
    ∧ (∃ s, run frontend_id state_empty
          [.update (env_sample 10000), .update (env_sample 15000), .read,
           .update (env_sample 20000)] = some s ∧ s._accum_count < 10)
    ∧ (∃ tr, _update frontend_id state_nine (env_sample 10000) = some
          ({ state_nine with
              _mag_accum := (state_nine._mag_accum.add ⟨-370, 180, 10140⟩).div 2,
              _accum_count := 5,
              _last_update_timestamp := to_uint32 (env_sample 10000).micros }, tr)) :=
  ⟨(accum_count_invariant frontend_id).1 state_empty
      ⟨dig_sample, ⟨-740, 360, 20280⟩, 2, 20000, 0⟩
      [.update (env_sample 10000), .update (env_sample 15000), .update (env_sample 20000)]
      (by decide) (by decide),
   (accum_count_invariant frontend_id).2.1 state_empty _ (by decide) (by decide),
   (accum_count_invariant frontend_id).2.2 state_nine (env_sample 10000) data_sample
      ⟨⟨-370, 180, 10140⟩, ⟨-370, 180, 10140⟩⟩ (by decide) (by rfl) (by decide) (by decide)⟩

/-- C6. A cycle that is rate-limited, or does not get the bus lock, or whose register read
fails, or that reads a fourth data register with bit 0 clear, returns with the driver state
unchanged (sum, count and last-update timestamp included) and publishes no raw sample. -/
theorem skipped_cycle_changes_nothing {F : Type} [Add F] [Mul F] [Div F] [IntCast F]
    (fe : Frontend F) (s : State F) (env : UpdateEnv)
    (h : (env.micros - s._last_update_timestamp) % 4294967296 < 10000
        ∨ env.take_nonblocking = false
        ∨ env.read_registers = none
        ∨ ∃ data, env.read_registers = some data ∧ le16 (data 6) (data 7) % 2 = 0) :
    ∃ tr, _update fe s env = some (s, tr) ∧ ∀ e ∈ tr, e.is_publish_raw = false := by
  apply update_skip_of_not_accepted
  unfold accepted
  rw [rate_limit_emod]
  rcases h with h | h | h | ⟨data, hd, hb⟩
  · simp [MEASURE_TIME_USEC, h]
  · simp [h]
  · simp [h]
  · simp [hd, hb]

/-- Witness for C6: a cycle at time 10000 from the empty state that gets the lock and reads
a block whose data-ready bit is clear. -/
theorem skipped_cycle_changes_nothing_witness :
    ∃ tr, _update frontend_id state_empty ⟨10000, true, some data_not_ready⟩
        = some (state_empty, tr) ∧ ∀ e ∈ tr, e.is_publish_raw = false :=
  skipped_cycle_changes_nothing frontend_id state_empty ⟨10000, true, some data_not_ready⟩
    (Or.inr (Or.inr (Or.inr ⟨data_not_ready, rfl, by decide⟩)))

/-- C7. After a cycle at `t1` that accepted a sample, a cycle at `t2` with
`(t2 - t1) mod 2^32 < 10000` returns at once, whatever the lock and the bus would answer:
it leaves the state unchanged and makes no call, so the two cycles publish one raw sample.
A cycle returns at the rate-limit check exactly when `(now - last_update) mod 2^32 < 10000`. -/
theorem rate_limit {F : Type} [Add F] [Mul F] [Div F] [IntCast F] (fe : Frontend F) :
    (∀ (s s1 : State F) (env1 env2 : UpdateEnv) (tr1 : List (Event F)),
        _update fe s env1 = some (s1, tr1) → accepted s env1 = true →
        (env2.micros - env1.micros) % 4294967296 < 10000 →
        s1._last_update_timestamp = env1.micros % 4294967296
        ∧ _update fe s1 env2 = some (s1, [])
        ∧ (tr1 ++ []).countP Event.is_publish_raw = 1)
    ∧ (∀ (s : State F) (env : UpdateEnv),
        _update fe s env = some (s, [])
          ↔ (env.micros - s._last_update_timestamp) % 4294967296 < 10000) := by
  have hB : ∀ (s : State F) (env : UpdateEnv),
      _update fe s env = some (s, [])
        ↔ (env.micros - s._last_update_timestamp) % 4294967296 < 10000 := by
    intro s env
    constructor
    · intro h
      by_contra hn
      rw [← rate_limit_emod] at hn
      unfold _update at h
      simp only [MEASURE_TIME_USEC, hn, if_false] at h
      cases ht : env.take_nonblocking with
      | false => simp [ht] at h
      | true =>
        cases hd : env.read_registers with
        | none => simp [ht, hd] at h
        | some data =>
          simp only [ht, hd] at h
          by_cases hb : le16 (data 6) (data 7) % 2 = 0
          · simp [hb] at h
          · cases hf : _update_field fe s data with
            | none => simp [hb, hf] at h
            | some f => simp [hb, hf] at h
    · intro h
      rw [← rate_limit_emod] at h
      unfold _update
      simp [MEASURE_TIME_USEC, h]
  refine ⟨?_, hB⟩
  intro s s1 env1 env2 tr1 hu ha ht
  obtain ⟨data, hd, _⟩ := accepted_data s env1 ha
  cases hf : _update_field fe s data with
  | none => rw [update_undefined fe s env1 data ha hd hf] at hu; cases hu
  | some f =>
    rw [update_of_accepted fe s env1 data f ha hd hf] at hu
    simp only [Option.some.injEq, Prod.mk.injEq] at hu
    obtain ⟨hs1, htr⟩ := hu
    have hlast : s1._last_update_timestamp = env1.micros % 4294967296 := by
      rw [← hs1]; rfl
    refine ⟨hlast, (hB s1 env2).mpr ?_, ?_⟩
    · rw [hlast]; omega
    · rw [← htr]; simp [Event.is_publish_raw]

/-- Witness for C7: an accepted cycle at time 10000 from the empty state, followed by a
cycle at time 15000. -/
theorem rate_limit_witness :
    (⟨dig_sample, ⟨-370, 180, 10140⟩, 1, 10000, 0⟩ : State Int)._last_update_timestamp
        = (env_sample 10000).micros % 4294967296
    ∧ _update frontend_id ⟨dig_sample, ⟨-370, 180, 10140⟩, 1, 10000, 0⟩ (env_sample 15000)
        = some (⟨dig_sample, ⟨-370, 180, 10140⟩, 1, 10000, 0⟩, [])
    ∧ (([.take_nonblocking true,
          .read_registers DATA_X_LSB_REG 8 (some (List.ofFn data_sample)), .give,
          .rotate_field 0, .publish_raw_field ⟨-370, 180, 10140⟩ 10000 0,
          .correct_field 0] : List (Event Int)) ++ []).countP Event.is_publish_raw = 1 :=
  (rate_limit frontend_id).1 state_empty _ (env_sample 10000) (env_sample 15000) _
    (by decide) (by decide) (by decide)

/-- C8. With a count of 0, `read` makes no call and leaves the state unchanged.  With a
count `n > 0` and a sum `S`, `read` suspends and resumes the timer procedures, then
publishes one filtered sample, `S / n` componentwise with the instance identity, and leaves
a zero sum and a count of 0; the count it divides by is not zero. -/
theorem read_contract {F : Type} [Div F] [Zero F] [IntCast F] (s : State F) :
    (s._accum_count = 0 → read s = (s, []))
    ∧ (0 < s._accum_count →
        read s =
          ({ s with _mag_accum := ⟨0, 0, 0⟩, _accum_count := 0 },
           [.suspend_timer_procs, .resume_timer_procs,
            .publish_filtered_field
              ⟨s._mag_accum.x / ((s._accum_count : Int) : F),
               s._mag_accum.y / ((s._accum_count : Int) : F),
               s._mag_accum.z / ((s._accum_count : Int) : F)⟩ s._compass_instance])
        ∧ (s._accum_count : Int) ≠ 0) := by
  constructor
  · intro h
    simp [read, h]
  · intro h
    have hn : s._accum_count ≠ 0 := by omega
    refine ⟨?_, by omega⟩
    simp [read, hn, Vector3f.div, Vector3f.zero]

/-- Witness for C8: a count of 5 and the sum `(10, 20, -35)` over the rationals. -/
theorem read_contract_witness :
    read state_five =
      ({ state_five with _mag_accum := ⟨0, 0, 0⟩, _accum_count := 0 },
       [.suspend_timer_procs, .resume_timer_procs,
        .publish_filtered_field
          ⟨state_five._mag_accum.x / ((state_five._accum_count : Int) : ℚ),
           state_five._mag_accum.y / ((state_five._accum_count : Int) : ℚ),
           state_five._mag_accum.z / ((state_five._accum_count : Int) : ℚ)⟩
          state_five._compass_instance])
    ∧ (state_five._accum_count : Int) ≠ 0 :=
  (read_contract state_five).2 (by decide)

/-! ## Theorems: initializer -/

theorem init_ret_iff {F : Type} (decl : DigDecl) (s : State F) (env : InitEnv) :
    (init decl s env).ret = true ↔ env.every_step_succeeds := by
  obtain ⟨take, soft_reset, power_control, chip_id, trim, rxy, rz, op, rc⟩ := env
  unfold InitEnv.every_step_succeeds
  cases take <;> cases soft_reset <;> cases power_control <;> try (simp [init])
  cases chip_id with
  | none => simp [init]
  | some b =>
    by_cases hb : b.val = CHIP_ID_VAL
    · cases trim with
      | none => simp [init, hb, _load_trim_values]
      | some t =>
        cases rxy <;> cases rz <;> cases op <;>
          simp [init, hb, _load_trim_values]
    · simp [init, hb]

/-- C9. `init` returns true exactly when every step succeeds; `probe`, given the allocated
sensor object, returns an instance exactly then.  For every identity byte other than 0x32,
`init` returns false and `probe` returns no instance. -/
theorem init_succeeds_iff_every_step {F : Type} (decl : DigDecl) (s : State F)
    (env : InitEnv) :
    ((init decl s env).ret = true ↔ env.every_step_succeeds)
    ∧ ((probe decl (some s) env).1.isSome = true ↔ env.every_step_succeeds)
    ∧ (∀ b : Byte, env.chip_id = some b → b.val ≠ 0x32 →
        (init decl s env).ret = false
        ∧ ∀ sensor : Option (State F), (probe decl sensor env).1 = none) := by
  have hi := init_ret_iff decl s env
  refine ⟨hi, ?_, ?_⟩
  · rw [← hi]
    unfold probe
    cases h : (init decl s env).ret <;> simp [h]
  · intro b hb hne
    have hn : ∀ s1 : State F, (init decl s1 env).ret = false := by
      intro s1
      cases h : (init decl s1 env).ret with
      | false => rfl
      | true =>
        have h1 := ((init_ret_iff decl s1 env).mp h).2.2.2.1
        rw [hb] at h1
        simp [CHIP_ID_VAL] at h1
        exact absurd h1 hne
    refine ⟨hn s, ?_⟩
    intro sensor
    cases sensor with
    | none => rfl
    | some s1 => simp [probe, hn s1]

/-- Witness for C9: every transaction succeeds and the identity register reads 0x33. -/
theorem init_succeeds_iff_every_step_witness :
    (init decl_sample state_empty env_wrong_id).ret = false
      ∧ ∀ sensor : Option (State Int), (probe decl_sample sensor env_wrong_id).1 = none :=
  (init_succeeds_iff_every_step decl_sample state_empty env_wrong_id).2.2 0x33
    (by rfl) (by decide)

set_option maxHeartbeats 1600000 in
/-- C10. Whenever `init` returns false: (a) its calls on the bus lock are one successful
acquisition followed by one release, or one failed acquisition and no release; (b) its calls
on the scheduler suspension are one suspend followed by one resume, the resume being the
last call of all; (c) it makes no call to `register_compass` or `register_timer_process`;
(d) a step failed, and no bus transaction follows the first failed step. -/
theorem init_failure_is_clean {F : Type} (decl : DigDecl) (s : State F) (env : InitEnv)
    (h : (init decl s env).ret = false) :
    (init decl s env).trace.filter Event.is_lock_call
        = (if env.take = true then [.take_blocking true, .give] else [.take_blocking false])
    ∧ (init decl s env).trace.filter Event.is_scheduler_suspension
        = [.suspend_timer_procs, .resume_timer_procs]
    ∧ (init decl s env).trace.getLast? = some .resume_timer_procs
    ∧ (∀ e ∈ (init decl s env).trace, e.is_registration = false)
    ∧ (∃ e ∈ (init decl s env).trace, e.is_failed_step = true)
    ∧ no_bus_transaction_after_failed_step (init decl s env).trace = true := by
  obtain ⟨take, soft_reset, power_control, chip_id, trim, rxy, rz, op, rc⟩ := env
  cases take
  · simp [init, init_fail_sem, Event.is_lock_call, Event.is_scheduler_suspension,
      Event.is_registration, Event.is_failed_step, Event.is_bus_transaction,
      no_bus_transaction_after_failed_step]
  cases soft_reset
  · simp [init, init_fail_sem, init_fail, init_bus_error, Event.is_lock_call,
      Event.is_scheduler_suspension, Event.is_registration, Event.is_failed_step,
      Event.is_bus_transaction, no_bus_transaction_after_failed_step]
  cases power_control
  · simp [init, init_fail_sem, init_fail, init_bus_error, Event.is_lock_call,
      Event.is_scheduler_suspension, Event.is_registration, Event.is_failed_step,
      Event.is_bus_transaction, no_bus_transaction_after_failed_step]
  cases chip_id with
  | none =>
    simp [init, init_fail_sem, init_fail, init_bus_error, Event.is_lock_call,
      Event.is_scheduler_suspension, Event.is_registration, Event.is_failed_step,
      Event.is_bus_transaction, no_bus_transaction_after_failed_step]
  | some b =>
    by_cases hb : b.val = CHIP_ID_VAL
    · have hb2 : b = ⟨CHIP_ID_VAL, by decide⟩ := Fin.ext hb
      subst hb2
      cases trim with
      | none =>
        simp [init, init_fail_sem, init_fail, init_bus_error, Event.is_lock_call,
          Event.is_scheduler_suspension, Event.is_registration, Event.is_failed_step,
          Event.is_bus_transaction, no_bus_transaction_after_failed_step, _load_trim_values]
      | some t =>
        cases rxy <;> cases rz <;> cases op <;>
          first
          | (exfalso; simp [init, _load_trim_values] at h; done)
          | (simp only [init, _load_trim_values]
             generalize List.ofFn t = l
             simp [init_fail_sem, init_fail, init_bus_error, Event.is_lock_call,
              Event.is_scheduler_suspension, Event.is_registration, Event.is_failed_step,
              Event.is_bus_transaction, no_bus_transaction_after_failed_step,
              (by decide : DIG_X1_REG ≠ CHIP_ID_REG)])
    · have hb2 : b ≠ ⟨CHIP_ID_VAL, by decide⟩ := fun e => hb (by rw [e])
      simp [init, init_fail_sem, init_fail, init_bus_error, Event.is_lock_call,
        Event.is_scheduler_suspension, Event.is_registration, Event.is_failed_step,
        Event.is_bus_transaction, no_bus_transaction_after_failed_step, hb, hb2]


/-- Witness for C10: every transaction succeeds and the identity register reads 0x33. -/
theorem init_failure_is_clean_witness :
    (init decl_sample state_empty env_wrong_id).trace.filter Event.is_lock_call
        = (if env_wrong_id.take = true then [.take_blocking true, .give]
           else [.take_blocking false])
    ∧ (init decl_sample state_empty env_wrong_id).trace.filter Event.is_scheduler_suspension
        = [.suspend_timer_procs, .resume_timer_procs]
    ∧ (init decl_sample state_empty env_wrong_id).trace.getLast? = some .resume_timer_procs
    ∧ (∀ e ∈ (init decl_sample state_empty env_wrong_id).trace, e.is_registration = false)
    ∧ (∃ e ∈ (init decl_sample state_empty env_wrong_id).trace, e.is_failed_step = true)
    ∧ no_bus_transaction_after_failed_step
        (init decl_sample state_empty env_wrong_id).trace = true :=
  init_failure_is_clean decl_sample state_empty env_wrong_id (by decide)

/-! ## Theorems: trim table loader and raw sample decoding -/

theorem le16_range (b0 b1 : Byte) : 0 ≤ le16 b0 b1 ∧ le16 b0 b1 < 65536 := by
  unfold le16
  have h0 := b0.isLt
  have h1 := b1.isLt
  omega

theorem le16toh_le16 (b0 b1 : Byte) : le16toh (le16 b0 b1) = le16 b0 b1 := by
  have h := le16_range b0 b1
  unfold le16toh to_uint16
  omega

theorem trim_byte_eq (t : TrimBlock) :
    trim_byte t DIG_X1_REG = t 0 ∧ trim_byte t DIG_Y1_REG = t 1
    ∧ trim_byte t DIG_Z4_LSB_REG = t 5 ∧ trim_byte t DIG_Z4_MSB_REG = t 6
    ∧ trim_byte t DIG_X2_REG = t 7 ∧ trim_byte t DIG_Y2_REG = t 8
    ∧ trim_byte t DIG_Z2_LSB_REG = t 11 ∧ trim_byte t DIG_Z2_MSB_REG = t 12
    ∧ trim_byte t DIG_Z1_LSB_REG = t 13 ∧ trim_byte t DIG_Z1_MSB_REG = t 14
    ∧ trim_byte t DIG_XYZ1_LSB_REG = t 15 ∧ trim_byte t DIG_XYZ1_MSB_REG = t 16
    ∧ trim_byte t DIG_Z3_LSB_REG = t 17 ∧ trim_byte t DIG_Z3_MSB_REG = t 18
    ∧ trim_byte t DIG_XY2_REG = t 19 ∧ trim_byte t DIG_XY1_REG = t 20 := by
  refine ⟨rfl, rfl, rfl, rfl, rfl, rfl, rfl, rfl, rfl, rfl, rfl, rfl, rfl, rfl, rfl, rfl⟩

theorem trim_byte_offset (t : TrimBlock) (k : Fin 21) :
    trim_byte t (DIG_X1_REG + k.val) = t k := by
  unfold trim_byte
  have h : DIG_X1_REG + k.val - DIG_X1_REG = k.val := by omega
  have hk := k.isLt
  simp [h, hk]

theorem store_le16_closed (signed : Bool) (b0 b1 : Byte) :
    DigDecl.store signed (le16 b0 b1)
      = (if signed = true ∧ 32768 ≤ (b0.val : Int) + 256 * (b1.val : Int)
         then (b0.val : Int) + 256 * (b1.val : Int) - 65536
         else (b0.val : Int) + 256 * (b1.val : Int)) := by
  have h0 := b0.isLt
  have h1 := b1.isLt
  unfold DigDecl.store le16 to_int16 to_uint16
  cases signed
  · simp only [Bool.false_eq_true, false_and, if_false]
    omega
  · simp only [true_and, if_true]
    split_ifs <;> omega

/-- C11. For every 21-byte block read at register 0x5D, `_load_trim_values` returns true
and stores: `x1`, `y1`, `x2`, `y2`, `xy2` the signed bytes at 0x5D, 0x5E, 0x64, 0x65, 0x70
(the byte `b` read as `b` below 128 and as `b - 256` from 128 on); `xy1` the unsigned byte
at 0x71; `z4`, `z2`, `z1`, `xyz1`, `z3` the little-endian 16-bit values `lo + 256 * hi` at
0x62/0x63, 0x68/0x69, 0x6A/0x6B, 0x6C/0x6D, 0x6E/0x6F, in the type of the member (less
65536 from 32768 on when the member is signed).  The byte at register `0x5D + k` is the
byte `k` of the block.  Two blocks that differ only in the reserved registers 0x5F-0x61 and
0x66-0x67 give the same state, and the function returns false exactly when the bus read
fails. -/
theorem load_trim_values_layout {F : Type} (decl : DigDecl) (s : State F) :
    (∀ t : TrimBlock,
      _load_trim_values decl s (some t) =
        (true,
         { s with _dig :=
            { x1 := int8_of (trim_byte t DIG_X1_REG)
              y1 := int8_of (trim_byte t DIG_Y1_REG)
              z4 := DigDecl.store decl.z4_signed
                (le16 (trim_byte t DIG_Z4_LSB_REG) (trim_byte t DIG_Z4_MSB_REG))
              x2 := int8_of (trim_byte t DIG_X2_REG)
              y2 := int8_of (trim_byte t DIG_Y2_REG)
              z2 := DigDecl.store decl.z2_signed
                (le16 (trim_byte t DIG_Z2_LSB_REG) (trim_byte t DIG_Z2_MSB_REG))
              z1 := DigDecl.store decl.z1_signed
                (le16 (trim_byte t DIG_Z1_LSB_REG) (trim_byte t DIG_Z1_MSB_REG))
              xyz1 := DigDecl.store decl.xyz1_signed
                (le16 (trim_byte t DIG_XYZ1_LSB_REG) (trim_byte t DIG_XYZ1_MSB_REG))
              z3 := DigDecl.store decl.z3_signed
                (le16 (trim_byte t DIG_Z3_LSB_REG) (trim_byte t DIG_Z3_MSB_REG))
              xy2 := int8_of (trim_byte t DIG_XY2_REG)
              xy1 := ((trim_byte t DIG_XY1_REG).val : Int) } },
         [.read_registers DIG_X1_REG 21 (some (List.ofFn t))]))
    ∧ (∀ t t1 : TrimBlock,
        (∀ reg, reg ∉ reserved_trim_registers → trim_byte t reg = trim_byte t1 reg) →
        (_load_trim_values decl s (some t)).2.1 = (_load_trim_values decl s (some t1)).2.1)
    ∧ (∀ rd : Option TrimBlock, (_load_trim_values decl s rd).1 = false ↔ rd = none)
    ∧ (∀ (t : TrimBlock) (k : Fin 21), trim_byte t (0x5D + k.val) = t k)
    ∧ (∀ t : TrimBlock,
        (_load_trim_values decl s (some t)).2.1._dig.x1
            = (if (t 0).val < 128 then ((t 0).val : Int) else ((t 0).val : Int) - 256)
        ∧ (_load_trim_values decl s (some t)).2.1._dig.y1
            = (if (t 1).val < 128 then ((t 1).val : Int) else ((t 1).val : Int) - 256)
        ∧ (_load_trim_values decl s (some t)).2.1._dig.z4
            = (if decl.z4_signed = true ∧ 32768 ≤ ((t 5).val : Int) + 256 * ((t 6).val : Int)
               then ((t 5).val : Int) + 256 * ((t 6).val : Int) - 65536
               else ((t 5).val : Int) + 256 * ((t 6).val : Int))
        ∧ (_load_trim_values decl s (some t)).2.1._dig.x2
            = (if (t 7).val < 128 then ((t 7).val : Int) else ((t 7).val : Int) - 256)
        ∧ (_load_trim_values decl s (some t)).2.1._dig.y2
            = (if (t 8).val < 128 then ((t 8).val : Int) else ((t 8).val : Int) - 256)
        ∧ (_load_trim_values decl s (some t)).2.1._dig.z2
            = (if decl.z2_signed = true ∧ 32768 ≤ ((t 11).val : Int) + 256 * ((t 12).val : Int)
               then ((t 11).val : Int) + 256 * ((t 12).val : Int) - 65536
               else ((t 11).val : Int) + 256 * ((t 12).val : Int))
        ∧ (_load_trim_values decl s (some t)).2.1._dig.z1
            = (if decl.z1_signed = true ∧ 32768 ≤ ((t 13).val : Int) + 256 * ((t 14).val : Int)
               then ((t 13).val : Int) + 256 * ((t 14).val : Int) - 65536
               else ((t 13).val : Int) + 256 * ((t 14).val : Int))
        ∧ (_load_trim_values decl s (some t)).2.1._dig.xyz1
            = (if decl.xyz1_signed = true
                  ∧ 32768 ≤ ((t 15).val : Int) + 256 * ((t 16).val : Int)
               then ((t 15).val : Int) + 256 * ((t 16).val : Int) - 65536
               else ((t 15).val : Int) + 256 * ((t 16).val : Int))
        ∧ (_load_trim_values decl s (some t)).2.1._dig.z3
            = (if decl.z3_signed = true ∧ 32768 ≤ ((t 17).val : Int) + 256 * ((t 18).val : Int)
               then ((t 17).val : Int) + 256 * ((t 18).val : Int) - 65536
               else ((t 17).val : Int) + 256 * ((t 18).val : Int))
        ∧ (_load_trim_values decl s (some t)).2.1._dig.xy2
            = (if (t 19).val < 128 then ((t 19).val : Int) else ((t 19).val : Int) - 256)
        ∧ (_load_trim_values decl s (some t)).2.1._dig.xy1 = ((t 20).val : Int)
        ∧ (_load_trim_values decl s (some t)).2.1._mag_accum = s._mag_accum
        ∧ (_load_trim_values decl s (some t)).2.1._accum_count = s._accum_count
        ∧ (_load_trim_values decl s (some t)).2.1._last_update_timestamp
            = s._last_update_timestamp
        ∧ (_load_trim_values decl s (some t)).2.1._compass_instance = s._compass_instance) := by
  refine ⟨?_, ?_, ?_, ?_, ?_⟩
  · intro t
    obtain ⟨h0, h1, h5, h6, h7, h8, h11, h12, h13, h14, h15, h16, h17, h18, h19, h20⟩ :=
      trim_byte_eq t
    simp only [_load_trim_values, le16toh_le16, h0, h1, h5, h6, h7, h8, h11, h12, h13, h14,
      h15, h16, h17, h18, h19, h20]
  · intro t t1 h
    have hk : ∀ k : Fin 21, k.val ∉ [2, 3, 4, 9, 10] → t k = t1 k := by
      intro k hk
      have := h (DIG_X1_REG + k.val) (by
        simp only [reserved_trim_registers, DIG_X1_REG, List.mem_cons, List.mem_singleton,
          List.not_mem_nil, or_false] at hk ⊢
        omega)
      rwa [trim_byte_offset, trim_byte_offset] at this
    simp only [_load_trim_values]
    rw [hk 0 (by decide), hk 1 (by decide), hk 5 (by decide), hk 6 (by decide),
      hk 7 (by decide), hk 8 (by decide), hk 11 (by decide), hk 12 (by decide),
      hk 13 (by decide), hk 14 (by decide), hk 15 (by decide), hk 16 (by decide),
      hk 17 (by decide), hk 18 (by decide), hk 19 (by decide), hk 20 (by decide)]
  · intro rd
    cases rd <;> simp [_load_trim_values]
  · intro t k
    exact trim_byte_offset t k
  · intro t
    simp only [_load_trim_values, le16toh_le16]
    refine ⟨rfl, rfl, store_le16_closed _ _ _, rfl, rfl, store_le16_closed _ _ _,
      store_le16_closed _ _ _, store_le16_closed _ _ _, store_le16_closed _ _ _, rfl, trivial,
      trivial, trivial, trivial, trivial⟩

/-- Witness for C11: the block `trim_high`, whose signed bytes and signed 16-bit values
have their high bit set, decoded with `z1` and `xyz1` unsigned and `z2`, `z3`, `z4` signed;
and the block `trim_high_reserved`, which differs from it in the five reserved registers
only. -/
theorem load_trim_values_layout_witness :
    (_load_trim_values decl_sample state_empty (some trim_high)).2.1._dig
        = { x1 := -1, y1 := -128, x2 := 26, y2 := -26, z1 := 24747, z2 := 763, z3 := -1000,
            z4 := -28108, xy1 := 200, xy2 := -3, xyz1 := 39521 }
    ∧ (_load_trim_values decl_sample state_empty (some trim_high)).2.1
        = (_load_trim_values decl_sample state_empty (some trim_high_reserved)).2.1 :=
  ⟨(congrArg (fun r => r.2.1._dig)
      ((load_trim_values_layout decl_sample state_empty).1 trim_high)).trans (by decide),
   (load_trim_values_layout decl_sample state_empty).2.1 trim_high trim_high_reserved
    (by
      intro reg hreg
      simp only [reserved_trim_registers, List.mem_cons, List.mem_singleton,
        List.not_mem_nil, or_false, not_or] at hreg
      unfold trim_byte DIG_X1_REG
      by_cases h : reg - 93 < 21
      · simp only [h, dite_true]
        have hr : reg - 93 = 0 ∨ reg - 93 = 1 ∨ reg - 93 = 5 ∨ reg - 93 = 6 ∨ reg - 93 = 7
            ∨ reg - 93 = 8 ∨ reg - 93 = 11 ∨ reg - 93 = 12 ∨ reg - 93 = 13 ∨ reg - 93 = 14
            ∨ reg - 93 = 15 ∨ reg - 93 = 16 ∨ reg - 93 = 17 ∨ reg - 93 = 18 ∨ reg - 93 = 19
            ∨ reg - 93 = 20 := by omega
        rcases hr with hr | hr | hr | hr | hr | hr | hr | hr | hr | hr | hr | hr | hr | hr
          | hr | hr <;> simp [trim_high, trim_high_reserved, hr]
      · simp only [h, dite_false])⟩

theorem hall_shift_commutes (b0 b1 : Byte) :
    le16toh (asr (le16 b0 b1) 2) = asr (le16toh (le16 b0 b1)) 2 := by
  rw [le16toh_le16]
  have h := le16_range b0 b1
  unfold le16toh to_uint16 asr
  omega

/-- C12. For every 8 data bytes, the field `_update` computes is the one obtained by passing
to `_compensate_xy` and `_compensate_z` the hall value `(b6 + 256 * b7) >> 2`, shifted after
the conversion to host byte order and lying in `[0, 16383]`, the X and Y inputs
`int16(b0 + 256 * b1) >> 3` and `int16(b2 + 256 * b3) >> 3`, lying in `[-4096, 4095]`, and
the Z input `int16(b4 + 256 * b5) >> 1`, lying in `[-16384, 16383]`, the shifts being
arithmetic. -/
theorem raw_sample_decoding {F : Type} [Mul F] [Div F] [IntCast F]
    (fe : Frontend F) (s : State F) (data : DataBlock) :
    (_update_field fe s data =
      (_compensate_xy s._dig (asr (to_int16 (le16 (data 0) (data 1))) 3)
          (asr (le16toh (le16 (data 6) (data 7))) 2) s._dig.x1 s._dig.x2).bind fun x =>
      (_compensate_xy s._dig (asr (to_int16 (le16 (data 2) (data 3))) 3)
          (asr (le16toh (le16 (data 6) (data 7))) 2) s._dig.y1 s._dig.y2).bind fun y =>
      (_compensate_z s._dig (asr (to_int16 (le16 (data 4) (data 5))) 1)
          (asr (le16toh (le16 (data 6) (data 7))) 2)).bind fun z =>
      some
        ⟨fe.rotate_field
            ((Vector3f.mk (x : F) (y : F) (z : F)).div ((16 : Int) : F)
              |>.mul ((10 : Int) : F)) s._compass_instance,
         fe.correct_field
            (fe.rotate_field
              ((Vector3f.mk (x : F) (y : F) (z : F)).div ((16 : Int) : F)
                |>.mul ((10 : Int) : F)) s._compass_instance) s._compass_instance⟩)
    ∧ asr (le16toh (le16 (data 6) (data 7))) 2
        = ((data 6).val + 256 * (data 7).val : Int) / 4
    ∧ (0 ≤ asr (le16toh (le16 (data 6) (data 7))) 2
        ∧ asr (le16toh (le16 (data 6) (data 7))) 2 ≤ 16383)
    ∧ (-4096 ≤ asr (to_int16 (le16 (data 0) (data 1))) 3
        ∧ asr (to_int16 (le16 (data 0) (data 1))) 3 ≤ 4095)
    ∧ (-4096 ≤ asr (to_int16 (le16 (data 2) (data 3))) 3
        ∧ asr (to_int16 (le16 (data 2) (data 3))) 3 ≤ 4095)
    ∧ (-16384 ≤ asr (to_int16 (le16 (data 4) (data 5))) 1
        ∧ asr (to_int16 (le16 (data 4) (data 5))) 1 ≤ 16383) := by
  have h01 := le16_range (data 0) (data 1)
  have h23 := le16_range (data 2) (data 3)
  have h45 := le16_range (data 4) (data 5)
  have h67 := le16_range (data 6) (data 7)
  refine ⟨?_, ?_, ?_, ?_, ?_, ?_⟩
  · simp only [_update_field, hall_shift_commutes, le16toh_le16, Option.bind_eq_bind]
  · rw [le16toh_le16]; unfold asr le16; norm_num
  · rw [le16toh_le16]; unfold asr; omega
  · unfold asr to_int16; omega
  · unfold asr to_int16; omega
  · unfold asr to_int16; omega

theorem update_count_ne_zero {F : Type} [Add F] [Mul F] [Div F] [IntCast F]
    (fe : Frontend F) (s s1 : State F) (env : UpdateEnv) (tr : List (Event F))
    (hc : s._accum_count ≠ 0) (h : _update fe s env = some (s1, tr)) :
    s1._accum_count ≠ 0 := by
  cases ha : accepted s env with
  | false =>
    obtain ⟨tr1, h1, _⟩ := update_skip_of_not_accepted fe s env ha
    rw [h1] at h
    cases h
    exact hc
  | true =>
    obtain ⟨data, hd, _⟩ := accepted_data s env ha
    cases hf : _update_field fe s data with
    | none => rw [update_undefined fe s env data ha hd hf] at h; cases h
    | some f =>
      rw [update_of_accepted fe s env data f ha hd hf] at h
      cases h
      by_cases h10 : s._accum_count + 1 = 10 <;> simp [h10]

/-- C13, as stated, fails: with five samples accumulated, `read()` tests `_accum_count`
before it suspends the timer procedures, so not every access to the accumulator is made
between the suspend call and the resume call. -/
theorem read_tests_count_before_suspend :
    read_steps state_five
        = [.access .test_accum_count, .call .suspend_timer_procs, .access .load_mag_accum,
           .access .load_accum_count, .access .store_mag_accum, .access .store_accum_count,
           .call .resume_timer_procs,
           .call (.publish_filtered_field
              (state_five._mag_accum.div ((state_five._accum_count : Int) : ℚ))
              state_five._compass_instance)]
    ∧ accesses_enclosed false (read_steps state_five) = false := by
  constructor
  · simp [read_steps, state_five]
  · simp [read_steps, state_five, accesses_enclosed]

/-- C13, amended. `read()` begins with the test of `_accum_count`, made before any call.
Every later access to the accumulator (the loads of the sum and of the count, the stores
that empty them) is made between the suspend call and the resume call, and the calls of
the steps are the calls of `read`.  A sampling cycle that runs after a test that found a
count other than 0 leaves the count other than 0. -/
theorem read_accesses_after_test_enclosed {F : Type} [Add F] [Mul F] [Div F] [Zero F]
    [IntCast F] (s : State F) :
    (∃ rest, read_steps s = .access .test_accum_count :: rest
        ∧ accesses_enclosed false rest = true
        ∧ rest.filterMap ReadStep.call_of = (read s).2
        ∧ (s._accum_count = 0 → rest = []))
    ∧ (∀ (fe : Frontend F) (env : UpdateEnv) (s1 : State F) (tr : List (Event F)),
        s._accum_count ≠ 0 → _update fe s env = some (s1, tr) → s1._accum_count ≠ 0) := by
  constructor
  · by_cases h : s._accum_count = 0
    · exact ⟨[], by simp [read_steps, h], rfl, by simp [read, h], fun _ => rfl⟩
    · refine ⟨[.call .suspend_timer_procs, .access .load_mag_accum,
          .access .load_accum_count, .access .store_mag_accum, .access .store_accum_count,
          .call .resume_timer_procs,
          .call (.publish_filtered_field (s._mag_accum.div ((s._accum_count : Int) : F))
            s._compass_instance)], by simp only [read_steps, h, if_false], ?_, ?_,
          fun h0 => absurd h0 h⟩
      · simp [accesses_enclosed]
      · simp [read, h, ReadStep.call_of]
  · intro fe env s1 tr hc hu
    exact update_count_ne_zero fe s s1 env tr hc hu

/-- Witness for C13, amended: a state with nine samples and an accepted cycle. -/
theorem read_accesses_after_test_enclosed_witness :
    (⟨dig_sample, (state_nine._mag_accum.add ⟨-370, 180, 10140⟩).div 2, 5, 10000, 0⟩
      : State Int)._accum_count ≠ 0 :=
  (read_accesses_after_test_enclosed state_nine).2 frontend_id (env_sample 10000) _
    [.take_nonblocking true, .read_registers DATA_X_LSB_REG 8 (some (List.ofFn data_sample)),
     .give, .rotate_field 0, .publish_raw_field ⟨-370, 180, 10140⟩ 10000 0, .correct_field 0]
    (by decide) (by decide)

/-- C14. A cycle at time `t` that passes the rate limit, gets the lock, reads successfully
and sees the data-ready bit set, with `c` the three compensated values and
`f = rotate(c / 16 * 10)`, publishes one raw sample, `f` with the timestamp `t` and the
instance identity; the sum becomes `sum + correct(f)`, halved if the count reaches 10; the
count becomes `count + 1`, or 5 if that is 10; the last-update timestamp becomes `t`. -/
theorem accepted_cycle_pipeline {F : Type} [Add F] [Mul F] [Div F] [IntCast F]
    (fe : Frontend F) (s : State F) (env : UpdateEnv) (data : DataBlock) (cx cy cz : Int)
    (hrate : 10000 ≤ (env.micros - s._last_update_timestamp) % 4294967296)
    (hlock : env.take_nonblocking = true)
    (hread : env.read_registers = some data)
    (hready : le16 (data 6) (data 7) % 2 = 1)
    (hx : _compensate_xy s._dig (asr (to_int16 (le16toh (le16 (data 0) (data 1)))) 3)
            (le16toh (asr (le16 (data 6) (data 7)) 2)) s._dig.x1 s._dig.x2 = some cx)
    (hy : _compensate_xy s._dig (asr (to_int16 (le16toh (le16 (data 2) (data 3)))) 3)
            (le16toh (asr (le16 (data 6) (data 7)) 2)) s._dig.y1 s._dig.y2 = some cy)
    (hz : _compensate_z s._dig (asr (to_int16 (le16toh (le16 (data 4) (data 5)))) 1)
            (le16toh (asr (le16 (data 6) (data 7)) 2)) = some cz) :
    ∃ (s1 : State F) (tr : List (Event F)),
      _update fe s env = some (s1, tr)
      ∧ tr.filter Event.is_publish_raw =
          [.publish_raw_field
            (fe.rotate_field
              (((Vector3f.mk (cx : F) (cy : F) (cz : F)).div ((16 : Int) : F)).mul
                ((10 : Int) : F)) s._compass_instance)
            (env.micros % 4294967296) s._compass_instance]
      ∧ s1._mag_accum =
          (if s._accum_count + 1 = 10 then
            (s._mag_accum.add
              (fe.correct_field
                (fe.rotate_field
                  (((Vector3f.mk (cx : F) (cy : F) (cz : F)).div ((16 : Int) : F)).mul
                    ((10 : Int) : F)) s._compass_instance) s._compass_instance)).div
              ((2 : Int) : F)
           else
            s._mag_accum.add
              (fe.correct_field
                (fe.rotate_field
                  (((Vector3f.mk (cx : F) (cy : F) (cz : F)).div ((16 : Int) : F)).mul
                    ((10 : Int) : F)) s._compass_instance) s._compass_instance))
      ∧ s1._accum_count = (if s._accum_count + 1 = 10 then 5 else s._accum_count + 1)
      ∧ s1._last_update_timestamp = env.micros % 4294967296
      ∧ s1._dig = s._dig ∧ s1._compass_instance = s._compass_instance := by
  have ha : accepted s env = true := by
    unfold accepted
    rw [rate_limit_emod]
    simp [MEASURE_TIME_USEC, hlock, hread, hready]
    omega
  have hf : _update_field fe s data = some
      ⟨fe.rotate_field
          (((Vector3f.mk (cx : F) (cy : F) (cz : F)).div ((16 : Int) : F)).mul
            ((10 : Int) : F)) s._compass_instance,
        fe.correct_field
          (fe.rotate_field
            (((Vector3f.mk (cx : F) (cy : F) (cz : F)).div ((16 : Int) : F)).mul
              ((10 : Int) : F)) s._compass_instance) s._compass_instance⟩ := by
    simp [_update_field, hx, hy, hz]
  refine ⟨_, _, update_of_accepted fe s env data _ ha hread hf, ?_, ?_, ?_, ?_, ?_, ?_⟩
  · simp [Event.is_publish_raw, to_uint32]
  · by_cases h10 : s._accum_count + 1 = 10 <;> simp [h10]
  · by_cases h10 : s._accum_count + 1 = 10 <;> simp [h10]
  · simp [to_uint32]
  · by_cases h10 : s._accum_count + 1 = 10 <;> simp [h10]
  · by_cases h10 : s._accum_count + 1 = 10 <;> simp [h10]

/-- Witness for C14: the cycle `env_sample 10000` from the empty state. -/
theorem accepted_cycle_pipeline_witness :
    ∃ (s1 : State Int) (tr : List (Event Int)),
      _update frontend_id state_empty (env_sample 10000) = some (s1, tr)
      ∧ tr.filter Event.is_publish_raw =
          [.publish_raw_field
            (frontend_id.rotate_field
              (((Vector3f.mk ((-579 : Int) : Int) ((289 : Int) : Int)
                  ((16238 : Int) : Int)).div ((16 : Int) : Int)).mul
                ((10 : Int) : Int)) state_empty._compass_instance)
            ((env_sample 10000).micros % 4294967296) state_empty._compass_instance]
      ∧ s1._mag_accum =
          (if state_empty._accum_count + 1 = 10 then
            (state_empty._mag_accum.add
              (frontend_id.correct_field
                (frontend_id.rotate_field
                  (((Vector3f.mk ((-579 : Int) : Int) ((289 : Int) : Int)
                      ((16238 : Int) : Int)).div ((16 : Int) : Int)).mul
                    ((10 : Int) : Int)) state_empty._compass_instance)
                state_empty._compass_instance)).div
              ((2 : Int) : Int)
           else
            state_empty._mag_accum.add
              (frontend_id.correct_field
                (frontend_id.rotate_field
                  (((Vector3f.mk ((-579 : Int) : Int) ((289 : Int) : Int)
                      ((16238 : Int) : Int)).div ((16 : Int) : Int)).mul
                    ((10 : Int) : Int)) state_empty._compass_instance)
                state_empty._compass_instance))
      ∧ s1._accum_count
          = (if state_empty._accum_count + 1 = 10 then 5 else state_empty._accum_count + 1)
      ∧ s1._last_update_timestamp = (env_sample 10000).micros % 4294967296
      ∧ s1._dig = state_empty._dig
      ∧ s1._compass_instance = state_empty._compass_instance :=
  accepted_cycle_pipeline frontend_id state_empty (env_sample 10000) data_sample
    (-579) 289 16238 (by decide) (by decide) (by rfl) (by decide) (by decide) (by decide)
    (by decide)

/-- C16. Whenever `init` returns true, its bus transactions are, in order: write 0x82 to
0x4B, write 0x01 to 0x4B, read 1 byte at 0x40 (it reads 0x32), read the 21-byte trim block
at 0x5D, write 23 to 0x51, write 82 to 0x52, write 0x38 to 0x4C, all successful.  0x38 is
normal mode combined with the 30 Hz code; 47 = 2 * 23 + 1 and 83 = 82 + 1.  The calls on
the lock and the registrations are, in order: acquisition, release, `register_compass`,
`register_timer_process`. -/
theorem init_success_configuration {F : Type} (decl : DigDecl) (s : State F) (env : InitEnv)
    (h : (init decl s env).ret = true) :
    (∃ t : TrimBlock, env.trim = some t
      ∧ (init decl s env).trace.filter Event.is_bus_transaction =
          [.write_register 0x4B 0x82 true, .write_register 0x4B 0x01 true,
           .read_registers 0x40 1 (some [0x32]),
           .read_registers 0x5D 21 (some (List.ofFn t)),
           .write_register 0x51 23 true, .write_register 0x52 82 true,
           .write_register 0x4C 0x38 true])
    ∧ (NORMAL_MODE ||| ODR_30HZ = 0x38 ∧ 47 = 2 * ((47 - 1) / 2) + 1 ∧ 83 = (83 - 1) + 1
        ∧ (47 - 1) / 2 = 23 ∧ 83 - 1 = 82)
    ∧ (init decl s env).trace.filter (fun e => e.is_lock_call || e.is_registration) =
        [.take_blocking true, .give, .register_compass env.register_compass,
         .register_timer_process] := by
  obtain ⟨h1, h2, h3, h4, h5, h6, h7, h8⟩ := (init_ret_iff decl s env).mp h
  obtain ⟨take, soft_reset, power_control, chip_id, trim, rxy, rz, op, rc⟩ := env
  simp only at h1 h2 h3 h4 h5 h6 h7 h8
  subst h1 h2 h3 h6 h7 h8
  cases chip_id with
  | none => simp at h4
  | some b =>
    have hb : b = ⟨CHIP_ID_VAL, by decide⟩ := by
      simp only [Option.map_some', Option.some.injEq] at h4
      exact Fin.ext h4
    subst hb
    cases trim with
    | none => simp at h5
    | some t =>
      refine ⟨⟨t, rfl, ?_⟩, by decide, ?_⟩
      · simp only [init, _load_trim_values]
        generalize List.ofFn t = l
        simp [Event.is_bus_transaction, CHIP_ID_VAL, POWER_AND_OPERATIONS_REG, SOFT_RESET,
          POWER_CONTROL_VAL, CHIP_ID_REG, DIG_X1_REG, REPETITIONS_XY_REG, REPETITIONS_Z_REG,
          OP_MODE_SELF_TEST_ODR_REG, NORMAL_MODE, ODR_30HZ]
      · simp only [init, _load_trim_values]
        generalize List.ofFn t = l
        simp [Event.is_lock_call, Event.is_registration, CHIP_ID_VAL]

/-- Witness for C16: an initialisation in which every step succeeds. -/
theorem init_success_configuration_witness :
    (init decl_sample state_empty env_all_ok).trace.filter
        (fun e => e.is_lock_call || e.is_registration) =
      [.take_blocking true, .give, .register_compass env_all_ok.register_compass,
       .register_timer_process] :=
  (init_success_configuration decl_sample state_empty env_all_ok (by decide)).2.2

/-- C17. In every `_update` invocation the lock is never requested with the blocking call;
the calls made are none (rate limit), or the failed non-blocking attempt alone, or the
successful attempt, one read of 8 bytes at `DATA_X_LSB_REG` and the release, in this order
and whether the read succeeded or not, followed only by calls that concern neither the
lock nor the bus (the calls to the frontend of an accepted cycle).  The invocation returns
whenever its compensation is defined. -/
theorem update_lock_discipline {F : Type} [Add F] [Mul F] [Div F] [IntCast F]
    (fe : Frontend F) (s : State F) (env : UpdateEnv) :
    (∀ (s1 : State F) (tr : List (Event F)), _update fe s env = some (s1, tr) →
      (∀ e ∈ tr, ∀ ok, e ≠ .take_blocking ok)
      ∧ (tr = [] ∨ tr = [.take_nonblocking false]
          ∨ ∃ rest, tr = [.take_nonblocking true,
                .read_registers DATA_X_LSB_REG 8 (env.read_registers.map List.ofFn), .give]
                ++ rest
              ∧ ∀ e ∈ rest, e.is_lock_call = false ∧ e.is_bus_transaction = false)
      ∧ (tr.filter Event.is_lock_call = [] ∨ tr.filter Event.is_lock_call = [.take_nonblocking false]
          ∨ tr.filter Event.is_lock_call = [.take_nonblocking true, .give]))
    ∧ (env.defined s._dig = true → ∃ r, _update fe s env = some r) := by
  refine ⟨?_, update_defined fe s env⟩
  intro s1 tr h
  unfold _update at h
  by_cases hr : to_uint32 (to_uint32 env.micros - to_uint32 s._last_update_timestamp)
      < MEASURE_TIME_USEC
  · simp only [hr, if_true, Option.some.injEq, Prod.mk.injEq] at h
    obtain ⟨_, rfl⟩ := h
    simp
  · simp only [hr, if_false] at h
    cases ht : env.take_nonblocking with
    | false =>
      simp only [ht, if_true, Option.some.injEq, Prod.mk.injEq] at h
      obtain ⟨_, rfl⟩ := h
      simp [Event.is_lock_call]
    | true =>
      cases hd : env.read_registers with
      | none =>
        simp only [ht, hd, Option.some.injEq, Prod.mk.injEq] at h
        simp only [Bool.true_eq_false, if_false, Option.map_none'] at h
        obtain ⟨_, rfl⟩ := h
        refine ⟨by simp, Or.inr (Or.inr ⟨[], by simp, by simp⟩), by simp [Event.is_lock_call]⟩
      | some data =>
        simp only [ht, hd, Bool.true_eq_false, if_false, Option.map_some'] at h
        by_cases hb : le16 (data 6) (data 7) % 2 = 0
        · simp only [hb, if_true, Option.some.injEq, Prod.mk.injEq] at h
          obtain ⟨_, rfl⟩ := h
          refine ⟨by simp, Or.inr (Or.inr ⟨[], by simp, by simp⟩),
            by simp [Event.is_lock_call]⟩
        · cases hf : _update_field fe s data with
          | none => simp [hb, hf] at h
          | some f =>
            simp only [hb, hf, if_false, Option.bind_eq_bind, Option.some_bind,
              Option.some.injEq, Prod.mk.injEq] at h
            obtain ⟨_, rfl⟩ := h
            refine ⟨by simp, Or.inr (Or.inr ⟨_, rfl, ?_⟩), by simp [Event.is_lock_call]⟩
            simp [Event.is_lock_call, Event.is_bus_transaction]

/-- Witness for C17: the accepted cycle `env_sample 10000` from the empty state. -/
theorem update_lock_discipline_witness :
    ∃ r, _update frontend_id state_empty (env_sample 10000) = some r :=
  (update_lock_discipline frontend_id state_empty (env_sample 10000)).2 (by decide)

/-- C18. A successful read whose fourth register is 1 has the data-ready bit set and a hall
value of 0; the cycle is accepted, `_update` passes 0 as `rhall` to `_compensate_xy`, which
divides by it: for a zero `rhall` the function has no defined result, and so has the
cycle. -/
theorem update_hall_zero_divides_by_zero :
    le16 (data_hall_zero 6) (data_hall_zero 7) % 2 = 1
    ∧ le16toh (asr (le16 (data_hall_zero 6) (data_hall_zero 7)) 2) = 0
    ∧ accepted state_empty ⟨10000, true, some data_hall_zero⟩ = true
    ∧ (∀ (dig : Dig) (xy txy1 txy2 : Int), _compensate_xy dig xy 0 txy1 txy2 = none)
    ∧ _update frontend_id state_empty ⟨10000, true, some data_hall_zero⟩ = none := by
  refine ⟨by decide, by decide, by decide, ?_, by decide⟩
  intro dig xy txy1 txy2
  simp [_compensate_xy, udiv32, to_uint32]

/-! ## Theorems: accumulator over the rationals -/

theorem update_step_sample {F : Type} [Add F] [Mul F] [Div F] [IntCast F]
    (fe : Frontend F) (s s1 : State F) (env : UpdateEnv) (tr : List (Event F))
    (h : _update fe s env = some (s1, tr)) :
    (cycle_sample fe s env = none ∧ s1 = s)
    ∨ ∃ v, cycle_sample fe s env = some v
        ∧ s1._mag_accum = (if s._accum_count + 1 = 10
            then (s._mag_accum.add v).div ((2 : Int) : F) else s._mag_accum.add v)
        ∧ s1._accum_count = (if s._accum_count + 1 = 10 then 5 else s._accum_count + 1) := by
  cases ha : accepted s env with
  | false =>
    obtain ⟨tr1, h1, _⟩ := update_skip_of_not_accepted fe s env ha
    rw [h1] at h
    cases h
    exact Or.inl ⟨by simp [cycle_sample, ha], rfl⟩
  | true =>
    obtain ⟨data, hd, _⟩ := accepted_data s env ha
    cases hf : _update_field fe s data with
    | none => rw [update_undefined fe s env data ha hd hf] at h; cases h
    | some f =>
      rw [update_of_accepted fe s env data f ha hd hf] at h
      cases h
      refine Or.inr ⟨f.corrected, by simp [cycle_sample, ha, hd, hf], ?_, ?_⟩
      · by_cases h10 : s._accum_count + 1 = 10 <;> simp [h10]
      · by_cases h10 : s._accum_count + 1 = 10 <;> simp [h10]

theorem read_state {F : Type} [Div F] [Zero F] [IntCast F] (s : State F) :
    (s._accum_count = 0 ∧ (read s).1 = s)
    ∨ (s._accum_count ≠ 0 ∧ (read s).1._accum_count = 0
        ∧ (read s).1._mag_accum = ⟨0, 0, 0⟩) := by
  by_cases h : s._accum_count = 0
  · exact Or.inl ⟨h, by simp [read, h]⟩
  · exact Or.inr ⟨h, by simp [read, h], by simp [read, h, Vector3f.zero]⟩

/-- The bound of C15 on a state: every component of the sum is at most `count * M` in
absolute value, and the count is below 10. -/
theorem magnitude_step (fe : Frontend ℚ) (M : ℚ) (s s1 : State ℚ) (env : UpdateEnv)
    (tr : List (Event ℚ))
    (hinv : s._mag_accum.bounded (s._accum_count * M) ∧ s._accum_count < 10)
    (hv : ∀ v, cycle_sample fe s env = some v → v.bounded M)
    (h : _update fe s env = some (s1, tr)) :
    s1._mag_accum.bounded (s1._accum_count * M) ∧ s1._accum_count < 10 := by
  refine ⟨?_, update_count_lt fe s s1 env tr hinv.2 h⟩
  rcases update_step_sample fe s s1 env tr h with ⟨_, rfl⟩ | ⟨v, hs, hsum, hcnt⟩
  · exact hinv.1
  · obtain ⟨⟨hx, hy, hz⟩, _⟩ := hinv
    obtain ⟨vx, vy, vz⟩ := hv v hs
    rw [hsum, hcnt]
    by_cases h10 : s._accum_count + 1 = 10
    · have h9 : (s._accum_count : ℚ) = 9 := by
        have : s._accum_count = 9 := by omega
        rw [this]; norm_num
      rw [h9] at hx hy hz
      simp only [h10, if_true, Vector3f.bounded, Vector3f.div, Vector3f.add]
      have e2 : ((2 : Int) : ℚ) = 2 := by norm_num
      rw [e2]
      refine ⟨?_, ?_, ?_⟩
      · rw [abs_div]; have := abs_add s._mag_accum.x v.x; norm_num; linarith
      · rw [abs_div]; have := abs_add s._mag_accum.y v.y; norm_num; linarith
      · rw [abs_div]; have := abs_add s._mag_accum.z v.z; norm_num; linarith
    · simp only [h10, if_false, Vector3f.bounded, Vector3f.add]
      push_cast
      refine ⟨?_, ?_, ?_⟩
      · have := abs_add s._mag_accum.x v.x; linarith
      · have := abs_add s._mag_accum.y v.y; linarith
      · have := abs_add s._mag_accum.z v.z; linarith

theorem magnitude_run (fe : Frontend ℚ) (M : ℚ) (calls : List Call) :
    ∀ (s0 : State ℚ), (s0._mag_accum.bounded (s0._accum_count * M) ∧ s0._accum_count < 10) →
      (∀ v ∈ accepted_samples fe s0 calls, v.bounded M) →
      ∀ (k : Nat) (s : State ℚ), run fe s0 (calls.take k) = some s →
        s._mag_accum.bounded (s._accum_count * M) ∧ s._accum_count < 10 := by
  induction calls with
  | nil =>
    intro s0 hinv _ k s h
    simp only [List.take_nil, run, Option.some.injEq] at h
    subst h; exact hinv
  | cons c cs ih =>
    intro s0 hinv hb k s h
    cases k with
    | zero =>
      simp only [List.take_zero, run, Option.some.injEq] at h
      subst h; exact hinv
    | succ k =>
      rw [List.take_succ_cons] at h
      cases c with
      | update env =>
        simp only [run] at h
        cases hu : _update fe s0 env with
        | none => simp [hu] at h
        | some r =>
          obtain ⟨s1, tr⟩ := r
          simp only [hu, Option.some_bind] at h
          simp only [accepted_samples, hu, List.mem_append, Option.mem_toList,
            Option.mem_def] at hb
          exact ih s1 (magnitude_step fe M s0 s1 env tr hinv
            (fun v hv => hb v (Or.inl hv)) hu) (fun v hv => hb v (Or.inr hv)) k s h
      | read =>
        simp only [run] at h
        simp only [accepted_samples] at hb
        refine ih (read s0).1 ?_ hb k s h
        rcases read_state s0 with ⟨_, h1⟩ | ⟨_, hc, hs⟩
        · rw [h1]; exact hinv
        · rw [hc, hs]
          simp [Vector3f.bounded]

/-- C15. Starting from an empty accumulator, for every bound `M ≥ 0` and every sequence of
`_update` and `read` invocations whose accepted corrected samples have every component of
absolute value at most `M`, after every invocation (every prefix of the sequence) each
component of the sum is at most `count * M` in absolute value, and `count * M ≤ 9 * M`.
The sequence reaches a state whenever no accepted cycle of it divides by zero. -/
theorem accumulator_magnitude_bounded (fe : Frontend ℚ) (M : ℚ) (s0 : State ℚ)
    (calls : List Call) (hM : 0 ≤ M)
    (h0 : s0._accum_count = 0 ∧ s0._mag_accum = ⟨0, 0, 0⟩)
    (hb : ∀ v ∈ accepted_samples fe s0 calls, v.bounded M) :
    (∀ (k : Nat) (s : State ℚ), run fe s0 (calls.take k) = some s →
      (|s._mag_accum.x| ≤ s._accum_count * M ∧ |s._mag_accum.y| ≤ s._accum_count * M
        ∧ |s._mag_accum.z| ≤ s._accum_count * M)
      ∧ (s._accum_count : ℚ) * M ≤ 9 * M)
    ∧ (Call.all_defined s0._dig calls = true → ∃ s, run fe s0 calls = some s) := by
  refine ⟨?_, fun hd => run_defined fe s0._dig calls s0 rfl hd⟩
  intro k s h
  have hinv0 : s0._mag_accum.bounded (s0._accum_count * M) ∧ s0._accum_count < 10 := by
    rw [h0.1, h0.2]
    simp [Vector3f.bounded]
  obtain ⟨hs, hc⟩ := magnitude_run fe M calls s0 hinv0 hb k s h
  refine ⟨hs, ?_⟩
  have h9 : (s._accum_count : ℚ) ≤ 9 := by
    have : s._accum_count ≤ 9 := by omega
    exact_mod_cast this
  exact mul_le_mul_of_nonneg_right h9 hM

theorem run_sample_q :
    run frontend_q state_empty_q [.update (env_sample 10000)] = some state_one_q := by
  rfl

theorem accepted_samples_q :
    accepted_samples frontend_q state_empty_q [.update (env_sample 10000)] = [sample_q] := by
  rfl

theorem sample_q_bounded : sample_q.bounded 20000 := by
  simp only [Vector3f.bounded, sample_q, Vector3f.div, Vector3f.mul]
  norm_num [abs_le]

/-- Witness for C15: the bound 20000 and one accepted cycle from the empty state. -/
theorem accumulator_magnitude_bounded_witness :
    (|state_one_q._mag_accum.x| ≤ state_one_q._accum_count * 20000
      ∧ |state_one_q._mag_accum.y| ≤ state_one_q._accum_count * 20000
      ∧ |state_one_q._mag_accum.z| ≤ state_one_q._accum_count * 20000)
    ∧ (state_one_q._accum_count : ℚ) * 20000 ≤ 9 * 20000 :=
  (accumulator_magnitude_bounded frontend_q 20000 state_empty_q [.update (env_sample 10000)]
    (by norm_num) ⟨rfl, rfl⟩
    (by
      intro v hv
      rw [accepted_samples_q, List.mem_singleton] at hv
      rw [hv]
      exact sample_q_bounded)).1 1 state_one_q run_sample_q

/-! ## Theorems: weighted average -/

theorem halved_weights_sum (g : Vector3f ℚ → ℚ) (ws : List (ℚ × Vector3f ℚ)) :
    ((ws.map fun p => (p.1 / 2, p.2)).map fun p => p.1 * g p.2).sum
      = (ws.map fun p => p.1 * g p.2).sum / 2 := by
  induction ws with
  | nil => simp
  | cons p ps ih =>
    simp only [List.map_cons, List.sum_cons] at ih ⊢
    rw [ih]; ring

theorem halved_weights_total (ws : List (ℚ × Vector3f ℚ)) :
    ((ws.map fun p => (p.1 / 2, p.2)).map Prod.fst).sum = (ws.map Prod.fst).sum / 2 := by
  induction ws with
  | nil => simp
  | cons p ps ih =>
    simp only [List.map_cons, List.sum_cons] at ih ⊢
    rw [ih]; ring

theorem weighted_step (fe : Frontend ℚ) (s s1 : State ℚ) (env : UpdateEnv)
    (tr : List (Event ℚ)) (acc : List (Vector3f ℚ))
    (hinv : ∃ ws, weighted_by s acc ws) (h : _update fe s env = some (s1, tr)) :
    ∃ ws, weighted_by s1 (acc ++ (cycle_sample fe s env).toList) ws := by
  obtain ⟨ws, hsnd, hpos, htot, hx, hy, hz⟩ := hinv
  rcases update_step_sample fe s s1 env tr h with ⟨hn, rfl⟩ | ⟨v, hs, hsum, hcnt⟩
  · exact ⟨ws, by simp [hn, hsnd], hpos, htot, hx, hy, hz⟩
  · by_cases h10 : s._accum_count + 1 = 10
    · have h9 : (s._accum_count : ℚ) = 9 := by
        have : s._accum_count = 9 := by omega
        rw [this]; norm_num
      have e2 : ((2 : Int) : ℚ) = 2 := by norm_num
      simp only [h10, if_true] at hsum hcnt
      refine ⟨(ws ++ [(1, v)]).map fun p : ℚ × Vector3f ℚ => (p.1 / 2, p.2),
        ?_, ?_, ?_, ?_, ?_, ?_⟩
      · simp [hs, hsnd, Function.comp_def]
      · intro p hp
        simp only [List.mem_map, List.mem_append, List.mem_singleton] at hp
        obtain ⟨q, hq, rfl⟩ := hp
        rcases hq with hq | rfl
        · exact div_pos (hpos q hq) (by norm_num)
        · norm_num
      · rw [halved_weights_total, hcnt]
        simp only [List.map_append, List.sum_append, htot, h9]
        norm_num
      · rw [halved_weights_sum (fun v => v.x), hsum]
        simp [Vector3f.div, Vector3f.add, hx, e2]
      · rw [halved_weights_sum (fun v => v.y), hsum]
        simp [Vector3f.div, Vector3f.add, hy, e2]
      · rw [halved_weights_sum (fun v => v.z), hsum]
        simp [Vector3f.div, Vector3f.add, hz, e2]
    · simp only [h10, if_false] at hsum hcnt
      refine ⟨ws ++ [(1, v)], ?_, ?_, ?_, ?_, ?_, ?_⟩
      · simp [hs, hsnd]
      · intro p hp
        simp only [List.mem_append, List.mem_singleton] at hp
        rcases hp with hp | rfl
        · exact hpos p hp
        · norm_num
      · rw [hcnt]; simp [htot]
      · rw [hsum]; simp [Vector3f.add, hx]
      · rw [hsum]; simp [Vector3f.add, hy]
      · rw [hsum]; simp [Vector3f.add, hz]

theorem weighted_run (fe : Frontend ℚ) (calls : List Call) :
    ∀ (s0 : State ℚ) (acc : List (Vector3f ℚ)), (∃ ws, weighted_by s0 acc ws) →
      ∀ s, run fe s0 calls = some s →
        ∃ ws, weighted_by s (pending_samples fe s0 acc calls) ws := by
  induction calls with
  | nil =>
    intro s0 acc hinv s h
    simp only [run, Option.some.injEq] at h
    subst h
    simpa [pending_samples] using hinv
  | cons c cs ih =>
    intro s0 acc hinv s h
    cases c with
    | update env =>
      simp only [run] at h
      cases hu : _update fe s0 env with
      | none => simp [hu] at h
      | some r =>
        obtain ⟨s1, tr⟩ := r
        simp only [hu, Option.some_bind] at h
        simp only [pending_samples, hu]
        exact ih s1 _ (weighted_step fe s0 s1 env tr acc hinv hu) s h
    | read =>
      simp only [run] at h
      simp only [pending_samples]
      refine ih (read s0).1 _ ?_ s h
      rcases read_state s0 with ⟨hc, h1⟩ | ⟨hc, hc0, hs⟩
      · rw [h1, if_pos hc]; exact hinv
      · rw [if_neg hc]
        exact ⟨[], rfl, by simp, by simp [hc0], by simp [hs], by simp [hs], by simp [hs]⟩

theorem weighted_lower (g : Vector3f ℚ → ℚ) (lo : ℚ) (ws : List (ℚ × Vector3f ℚ))
    (hpos : ∀ p ∈ ws, 0 < p.1) (hlo : ∀ p ∈ ws, lo ≤ g p.2) :
    lo * (ws.map Prod.fst).sum ≤ (ws.map fun p => p.1 * g p.2).sum := by
  induction ws with
  | nil => simp
  | cons p ps ih =>
    simp only [List.map_cons, List.sum_cons]
    have h1 := ih (fun q hq => hpos q (List.mem_cons_of_mem _ hq))
      (fun q hq => hlo q (List.mem_cons_of_mem _ hq))
    have h2 := hpos p (List.mem_cons_self _ _)
    have h3 := hlo p (List.mem_cons_self _ _)
    nlinarith [mul_le_mul_of_nonneg_left h3 h2.le]

theorem weighted_upper (g : Vector3f ℚ → ℚ) (hi : ℚ) (ws : List (ℚ × Vector3f ℚ))
    (hpos : ∀ p ∈ ws, 0 < p.1) (hhi : ∀ p ∈ ws, g p.2 ≤ hi) :
    (ws.map fun p => p.1 * g p.2).sum ≤ hi * (ws.map Prod.fst).sum := by
  induction ws with
  | nil => simp
  | cons p ps ih =>
    simp only [List.map_cons, List.sum_cons]
    have h1 := ih (fun q hq => hpos q (List.mem_cons_of_mem _ hq))
      (fun q hq => hhi q (List.mem_cons_of_mem _ hq))
    have h2 := hpos p (List.mem_cons_self _ _)
    have h3 := hhi p (List.mem_cons_self _ _)
    nlinarith [mul_le_mul_of_nonneg_left h3 h2.le]

theorem weighted_between (g : Vector3f ℚ → ℚ) (lo hi total : ℚ)
    (ws : List (ℚ × Vector3f ℚ)) (hpos : ∀ p ∈ ws, 0 < p.1)
    (htot : (ws.map Prod.fst).sum = total) (ht : 0 < total)
    (hb : ∀ v ∈ ws.map Prod.snd, lo ≤ g v ∧ g v ≤ hi) :
    lo ≤ (ws.map fun p => p.1 * g p.2).sum / total
      ∧ (ws.map fun p => p.1 * g p.2).sum / total ≤ hi := by
  have hlo := weighted_lower g lo ws hpos
    (fun p hp => (hb p.2 (List.mem_map_of_mem _ hp)).1)
  have hhi := weighted_upper g hi ws hpos
    (fun p hp => (hb p.2 (List.mem_map_of_mem _ hp)).2)
  rw [htot] at hlo hhi
  exact ⟨(le_div_iff₀ ht).mpr hlo, (div_le_iff₀ ht).mpr hhi⟩

/-- C19. Starting from an empty accumulator, after every sequence of invocations the sum is
a weighted sum of the corrected samples accepted since the last drain, with positive
weights that add up to the count.  When the count is not 0 there is such a sample, and
`read` publishes `sum / count`, each component of which lies between every lower bound and
every upper bound of that component over those samples, so between their minimum and their
maximum. -/
theorem filtered_output_weighted_average (fe : Frontend ℚ) (s0 s : State ℚ)
    (calls : List Call) (h0 : s0._accum_count = 0 ∧ s0._mag_accum = ⟨0, 0, 0⟩)
    (hrun : run fe s0 calls = some s) :
    (∃ ws : List (ℚ × Vector3f ℚ),
      ws.map Prod.snd = pending_samples fe s0 [] calls
      ∧ (∀ p ∈ ws, 0 < p.1)
      ∧ (ws.map Prod.fst).sum = s._accum_count
      ∧ s._mag_accum.x = (ws.map fun p => p.1 * p.2.x).sum
      ∧ s._mag_accum.y = (ws.map fun p => p.1 * p.2.y).sum
      ∧ s._mag_accum.z = (ws.map fun p => p.1 * p.2.z).sum)
    ∧ (0 < s._accum_count →
        pending_samples fe s0 [] calls ≠ []
        ∧ ∃ field : Vector3f ℚ,
            (read s).2 = [.suspend_timer_procs, .resume_timer_procs,
              .publish_filtered_field field s._compass_instance]
            ∧ ∀ lo hi : ℚ,
                ((∀ v ∈ pending_samples fe s0 [] calls, lo ≤ v.x ∧ v.x ≤ hi) →
                  lo ≤ field.x ∧ field.x ≤ hi)
                ∧ ((∀ v ∈ pending_samples fe s0 [] calls, lo ≤ v.y ∧ v.y ≤ hi) →
                  lo ≤ field.y ∧ field.y ≤ hi)
                ∧ ((∀ v ∈ pending_samples fe s0 [] calls, lo ≤ v.z ∧ v.z ≤ hi) →
                  lo ≤ field.z ∧ field.z ≤ hi)) := by
  have hw0 : ∃ ws, weighted_by s0 [] ws :=
    ⟨[], rfl, by simp, by simp [h0.1], by simp [h0.2], by simp [h0.2], by simp [h0.2]⟩
  obtain ⟨ws, hsnd, hpos, htot, hx, hy, hz⟩ := weighted_run fe calls s0 [] hw0 s hrun
  refine ⟨⟨ws, hsnd, hpos, htot, hx, hy, hz⟩, ?_⟩
  intro hc
  have hcq : (0 : ℚ) < (s._accum_count : ℚ) := by exact_mod_cast hc
  have hne : s._accum_count ≠ 0 := by omega
  have hcast : (((s._accum_count : Int)) : ℚ) = (s._accum_count : ℚ) := by norm_num
  refine ⟨?_, s._mag_accum.div ((s._accum_count : Int) : ℚ), by simp [read, hne], ?_⟩
  · intro hnil
    rw [← hsnd] at hnil
    have : ws = [] := by simpa using hnil
    rw [this] at htot
    simp only [List.map_nil, List.sum_nil] at htot
    exact hne (by exact_mod_cast htot.symm)
  · intro lo hi
    rw [← hsnd]
    simp only [Vector3f.div, hcast, hx, hy, hz]
    exact ⟨fun hb => weighted_between (fun v => v.x) lo hi _ ws hpos htot hcq hb,
      fun hb => weighted_between (fun v => v.y) lo hi _ ws hpos htot hcq hb,
      fun hb => weighted_between (fun v => v.z) lo hi _ ws hpos htot hcq hb⟩

/-- Witness for C19: one accepted cycle from the empty state over the rationals. -/
theorem filtered_output_weighted_average_witness :
    ∃ ws : List (ℚ × Vector3f ℚ),
      ws.map Prod.snd = pending_samples frontend_q state_empty_q [] [.update (env_sample 10000)]
      ∧ (∀ p ∈ ws, 0 < p.1)
      ∧ (ws.map Prod.fst).sum = state_one_q._accum_count
      ∧ state_one_q._mag_accum.x = (ws.map fun p => p.1 * p.2.x).sum
      ∧ state_one_q._mag_accum.y = (ws.map fun p => p.1 * p.2.y).sum
      ∧ state_one_q._mag_accum.z = (ws.map fun p => p.1 * p.2.z).sum :=
  (filtered_output_weighted_average frontend_q state_empty_q state_one_q
    [.update (env_sample 10000)] ⟨rfl, rfl⟩ run_sample_q).1

end BMM150
